import Mathlib

/-!
Shallow embedding of the auth/session core of the Operatoreuno/Server
repository: the token lifecycle and session-management engine
(`src/features/auth/**`, `src/core/errors/**`).

Conventions of the embedding:
* times are natural numbers counting seconds (JS `Date.now()` granularity
  reduced to seconds, the granularity at which `jsonwebtoken` records
  `iat`/`exp` claims);
* a signed JWT string is represented structurally by its signing inputs
  (`Token`): `jsonwebtoken`'s HS256 signing is deterministic, so two signing
  calls with equal payload, secret and timestamps produce the identical
  token string, and structural equality of `Token` coincides with string
  equality of the serialized tokens;
* secrets are abstract distinct values (`Nat`);
* `crypto.randomUUID()` and autoincrement primary keys are modelled by
  fresh-counter fields threaded through the database value;
* the external bcrypt collaborator is modelled by a deterministic stand-in
  hash function (`bcryptHash`) with `compare p h = (h = bcryptHash p)`;
* fallible code returns `Except`; JS exceptions that are not APIExceptions
  (the errors thrown by `jwt.verify` and `LoginSchema.parse`) are separate
  constructors of `Thrown`, because the repository's `errorHandler` wrapper
  translates them differently from `APIException`s.
-/

/-- Error codes from `core/errors/error.codes.ts` (the numeric enum). -/
def INVALID_REQUEST : Nat := 2003

/-- Error code NOT_FOUND = 1000. -/
def NOT_FOUND : Nat := 1000

/-- Error code UNPROCESSABLE_ENTITY = 2001. -/
def UNPROCESSABLE_ENTITY : Nat := 2001

/-- Error code INTERNAL_SERVER_ERROR = 3001. -/
def INTERNAL_SERVER_ERROR : Nat := 3001

/-- Error code UNAUTHORIZED = 4001. -/
def UNAUTHORIZED : Nat := 4001

/-- Error code FORBIDDEN = 4005. -/
def FORBIDDEN : Nat := 4005

/-- APIException values from `core/errors/exceptions/4xx.ts` and `5xx.ts`:
each constructor fixes the HTTP status code of the subclass, and carries the
`message` and `errorCode` fields passed to the constructor. -/
inductive ApiError where
  | badRequest (msg : String) (code : Nat)
  | unauthorized (msg : String) (code : Nat)
  | forbidden (msg : String) (code : Nat)
  | notFound (msg : String) (code : Nat)
  | internalServerError (msg : String) (code : Nat)
deriving DecidableEq, Repr

/-- HTTP status code attached by each APIException subclass constructor. -/
def ApiError.statusCode : ApiError → Nat
  | .badRequest _ _ => 400
  | .unauthorized _ _ => 401
  | .forbidden _ _ => 403
  | .notFound _ _ => 404
  | .internalServerError _ _ => 500

/-- Errors thrown by the service/controller layer: either an `APIException`,
or one of the foreign exception classes that reach the `errorHandler`
wrapper untranslated (`jsonwebtoken`'s `TokenExpiredError` and
`JsonWebTokenError`, and Zod's `ZodError` from `LoginSchema.parse`). -/
inductive Thrown where
  | api (e : ApiError)
  | jwtTokenExpired
  | jwtInvalid
  | zod
deriving DecidableEq, Repr

/-- Translation performed by `errorHandler` (error.handler / part_016):
`APIException`s pass through; `ZodError` becomes a 400 BadRequest with code
UNPROCESSABLE_ENTITY; every other exception (in particular the two
`jsonwebtoken` error classes) becomes a 500 `InternalServerError`. -/
def errorHandlerWrap : Thrown → ApiError
  | .api e => e
  | .zod => .badRequest "Dati non validi" UNPROCESSABLE_ENTITY
  | .jwtTokenExpired => .internalServerError "Errore del server" INTERNAL_SERVER_ERROR
  | .jwtInvalid => .internalServerError "Errore del server" INTERNAL_SERVER_ERROR

/-- Structural model of a signed JWT string: the payload claims actually
placed by this codebase (`id`, optionally `email`, `role`, `sessionId`),
the signing secret, and the `iat`/`exp` timestamps. HS256 signing is
deterministic, so equality of these fields is equality of token strings. -/
structure Token where
  payloadId : Nat
  payloadEmail : Option String
  payloadRole : Option String
  payloadSessionId : Option Nat
  secret : Nat
  iat : Nat
  exp : Nat
deriving DecidableEq, Repr

/-- Model of `jwt.sign(payload, secret, { expiresIn: ttl })` called at time
`now`: records the payload, the secret, `iat = now` and `exp = now + ttl`. -/
def jwtSign (payloadId : Nat) (payloadEmail : Option String) (payloadRole : Option String)
    (payloadSessionId : Option Nat) (secret ttl now : Nat) : Token :=
  ⟨payloadId, payloadEmail, payloadRole, payloadSessionId, secret, now, now + ttl⟩

/-- Model of `jwt.verify(token, secret)` at time `now`: throws
`JsonWebTokenError` on a signature mismatch (modelled as a differing
secret), `TokenExpiredError` once `now` reaches `exp`, and otherwise
returns the decoded payload's `id` claim. -/
def jwtVerify (t : Token) (secret now : Nat) : Except Thrown Nat :=
  if t.secret ≠ secret then .error .jwtInvalid
  else if t.exp ≤ now then .error .jwtTokenExpired
  else .ok t.payloadId

/-- Deterministic stand-in for the external bcrypt collaborator's hashing. -/
def bcryptHash (password : String) : String :=
  "$2b$10$" ++ password

/-- Model of an awaited `bcrypt.compare(password, hash)`. -/
def bcryptCompare (password hash : String) : Bool :=
  hash = bcryptHash password

/-- In the v1 revisions of `UserService.login` / `AdminService.login` the
call `compare(password, hash)` is not awaited: the expression evaluates to
a `Promise` object, which is truthy, so `!compare(...)` is always `false`
and the password check can never fail. `awaited := false` reproduces that
coercion; `awaited := true` is the properly awaited comparison of the v2
revisions. -/
def comparePasses (awaited : Bool) (password hash : String) : Bool :=
  if awaited then bcryptCompare password hash else true

/-- Row of the `UserRefreshToken` / `AdminRefreshToken` Prisma tables. -/
structure Session where
  id : Nat
  token : Token
  principalId : Nat
  sessionId : Nat
  createdAt : Nat
  expiresAt : Nat
  revoked : Bool
deriving DecidableEq, Repr

/-- Row of the `users` Prisma table (the fields the auth core touches). -/
structure Principal where
  id : Nat
  email : String
  password : String
  name : String
  surname : String
  isActive : Bool
  role : String
  lastLogin : Option Nat
deriving DecidableEq, Repr

/-- Row of the `admins` Prisma table. -/
structure Admin where
  id : Nat
  email : String
  password : String
deriving DecidableEq, Repr

/-- The Prisma database: both principal tables, both refresh-session
tables, plus the fresh-value sources (autoincrement row ids and
`crypto.randomUUID()` outputs, modelled as a counter). -/
structure Db where
  users : List Principal
  admins : List Admin
  userSessions : List Session
  adminSessions : List Session
  nextRowId : Nat
  nextUuid : Nat
deriving DecidableEq, Repr

/-- Model of Prisma `count({ where })`. -/
def countWhere (p : Session → Bool) (l : List Session) : Nat :=
  (l.filter p).length

/-- Model of Prisma `findFirst({ where })` (first row matching the filter
in store order). -/
def findFirstWhere (p : Session → Bool) (l : List Session) : Option Session :=
  l.find? p

/-- Revoked copy of a session row (`data: { revoked: true }`). -/
def revokeRow (s : Session) : Session :=
  { s with revoked := true }

/-- Model of Prisma `update({ where: { id }, data: { revoked: true } })`. -/
def updateRevokeById (i : Nat) (l : List Session) : List Session :=
  l.map fun s => if s.id = i then revokeRow s else s

/-- Model of Prisma `updateMany({ where, data: { revoked: true } })`,
returning the updated table together with the affected-row count. -/
def updateManyRevoke (p : Session → Bool) (l : List Session) : List Session × Nat :=
  (l.map fun s => if p s then revokeRow s else s, countWhere p l)

/-- Model of `findMany({ where, orderBy: { createdAt: 'asc' }, take: 1 })`
(and of `findFirst({ where, orderBy: { createdAt: 'asc' } })`): a row
matching the filter with minimal `createdAt`, the first such row in store
order when several are tied. -/
def oldestWhere (p : Session → Bool) (l : List Session) : Option Session :=
  match l.filter p with
  | [] => none
  | x :: xs => some (xs.foldl (fun b s => if s.createdAt < b.createdAt then s else b) x)

/-- Secret `USER_JWT_SECRET` from the environment, as an abstract value. -/
def USER_JWT_SECRET : Nat := 0

/-- Secret `USER_REFRESH_TOKEN_SECRET`. -/
def USER_REFRESH_TOKEN_SECRET : Nat := 1

/-- Secret `ADMIN_JWT_SECRET`. -/
def ADMIN_JWT_SECRET : Nat := 2

/-- Secret `ADMIN_REFRESH_TOKEN_SECRET`. -/
def ADMIN_REFRESH_TOKEN_SECRET : Nat := 3

/-- The `AuthConfig` interface of `features/auth/utils/types`: the scalar
configuration bundle. The store bindings (`findRefreshToken`,
`revokeRefreshToken`, `storeRefreshToken`) choose between the two session
tables and are modelled below keyed on the `entity` tag. -/
structure AuthConfig where
  jwtSecret : Nat
  refreshSecret : Nat
  refreshDuration : Nat
  entity : String
deriving DecidableEq, Repr

/-- Wiring of `userAuthConfig` (user.config.ts). -/
def userAuthConfig : AuthConfig :=
  ⟨USER_JWT_SECRET, USER_REFRESH_TOKEN_SECRET, 30, "USER"⟩

/-- Wiring of `adminAuthConfig` (admin.config.ts). -/
def adminAuthConfig : AuthConfig :=
  ⟨ADMIN_JWT_SECRET, ADMIN_REFRESH_TOKEN_SECRET, 7, "ADMIN"⟩

/-- Session table bound to a config (the `prismaClient.userRefreshToken` /
`prismaClient.adminRefreshToken` binding inside each config object). -/
def sessionsFor (cfg : AuthConfig) (db : Db) : List Session :=
  if cfg.entity = "ADMIN" then db.adminSessions else db.userSessions

/-- Replaces the session table bound to a config. -/
def setSessionsFor (cfg : AuthConfig) (db : Db) (l : List Session) : Db :=
  if cfg.entity = "ADMIN" then { db with adminSessions := l } else { db with userSessions := l }

/-- View returned by `findRefreshToken` in both configs:
`{ id, expiresAt, revoked }`. -/
structure StoredTokenView where
  id : Nat
  expiresAt : Nat
  revoked : Bool
deriving DecidableEq, Repr

/-- Model of `config.findRefreshToken(token)` (user.config.ts /
admin.config.ts): `findFirst({ where: { token, revoked: false } })`,
projected to `{ id, expiresAt, revoked }`. -/
def findRefreshToken (cfg : AuthConfig) (db : Db) (t : Token) : Option StoredTokenView :=
  match findFirstWhere (fun s => s.token = t && s.revoked = false) (sessionsFor cfg db) with
  | some s => some ⟨s.id, s.expiresAt, s.revoked⟩
  | none => none

/-- Model of `config.revokeRefreshToken(id)`:
`update({ where: { id }, data: { revoked: true } })`. -/
def revokeRefreshToken (cfg : AuthConfig) (db : Db) (i : Nat) : Db :=
  setSessionsFor cfg db (updateRevokeById i (sessionsFor cfg db))

/-- Model of `config.storeRefreshToken(token, entityId, sessionId,
expiresAt)`: a `create` on the bound table; `createdAt` takes the Prisma
default `now()`, the row id is the next autoincrement value. -/
def storeRefreshToken (cfg : AuthConfig) (db : Db) (t : Token) (entityId sessionId expiresAt now : Nat) : Db :=
  let row : Session :=
    ⟨db.nextRowId, t, entityId, sessionId, now, expiresAt, false⟩
  let db' := setSessionsFor cfg db (sessionsFor cfg db ++ [row])
  { db' with nextRowId := db.nextRowId + 1 }

/-- Result record of a modelled service/controller call: the JS return or
thrown value, the database after the call, and the total artificial
`setTimeout` delay (ms) executed during the call. -/
structure CallOut (α : Type) where
  result : Except Thrown α
  db : Db
  delayMs : Nat
deriving Repr

/-- Boolean success test on an `Except`. -/
def exceptIsOk {α β : Type} : Except α β → Bool
  | .ok _ => true
  | .error _ => false

/-- Payload of `handleTokenRefresh`'s return value together with the two
freshly minted tokens (the new access token is spliced into the request's
Authorization header, the new refresh token into the cookie). -/
structure RefreshOut where
  payloadId : Nat
  newAccessToken : Token
  newRefreshToken : Token
  newSessionId : Nat
deriving DecidableEq, Repr

/-- Model of `handleTokenRefresh(req, res, config)` from
`features/auth/utils/auth.ts` (lines 62-113), called at time `now` with the
`refreshToken` cookie (absent or malformed-beyond-parsing cookies are
`none`):
1. missing cookie: throws `UnauthorizedException("Missing refresh token")`;
2. `jwt.verify(refreshToken, config.refreshSecret)` (throws a
   `jsonwebtoken` error, not an APIException, on failure);
3. `config.findRefreshToken(refreshToken)`;
4. throws `UnauthorizedException("Invalid refresh token")` if the stored
   row is absent, expired (`expiresAt < now`) or revoked;
5. `config.revokeRefreshToken(storedToken.id)` (one-time use);
6. mints a new session id, a new refresh token with payload
   `{ id: refreshPayload.id }` and a new access token, both at time `now`;
7. `config.storeRefreshToken(newRefreshToken, refreshPayload.id,
   sessionId, now + refreshDuration days)`. -/
def handleTokenRefresh (cfg : AuthConfig) (db : Db) (now : Nat) (cookie : Option Token) :
    CallOut RefreshOut :=
  match cookie with
  | none => ⟨.error (.api (.unauthorized "Missing refresh token" UNAUTHORIZED)), db, 0⟩
  | some refreshTok =>
    match jwtVerify refreshTok cfg.refreshSecret now with
    | .error e => ⟨.error e, db, 0⟩
    | .ok payloadId =>
      match findRefreshToken cfg db refreshTok with
      | none => ⟨.error (.api (.unauthorized "Invalid refresh token" UNAUTHORIZED)), db, 0⟩
      | some storedToken =>
        if storedToken.expiresAt < now || storedToken.revoked then
          ⟨.error (.api (.unauthorized "Invalid refresh token" UNAUTHORIZED)), db, 0⟩
        else
          let db1 := revokeRefreshToken cfg db storedToken.id
          let sessionId := db1.nextUuid
          let newRefreshToken :=
            jwtSign payloadId none none none cfg.refreshSecret (cfg.refreshDuration * 86400) now
          let newAccessToken :=
            jwtSign payloadId none none none cfg.jwtSecret 900 now
          let db2 := storeRefreshToken cfg db1 newRefreshToken payloadId sessionId
            (now + cfg.refreshDuration * 86400) now
          ⟨.ok ⟨payloadId, newAccessToken, newRefreshToken, sessionId⟩,
            { db2 with nextUuid := db1.nextUuid + 1 }, 0⟩

/-- Externally observable outcome of the `/refresh` endpoint
(`refreshToken` controller wrapped in `errorHandler`): thrown values are
translated by `errorHandlerWrap` before reaching the error middleware. -/
def refreshTokenEndpoint (db : Db) (now : Nat) (cookie : Option Token) :
    Except ApiError RefreshOut × Db :=
  match handleTokenRefresh userAuthConfig db now cookie with
  | ⟨.ok r, db', _⟩ => (.ok r, db')
  | ⟨.error th, db', _⟩ => (.error (errorHandlerWrap th), db')

/-- Whitespace trimming at the character-list level (model of
JS `String.prototype.trim`). -/
def trimChars (l : List Char) : List Char :=
  ((l.dropWhile Char.isWhitespace).reverse.dropWhile Char.isWhitespace).reverse

/-- Sanitization applied by `EmailSchema` (`z.string().trim().toLowerCase()`). -/
def sanitizeEmail (e : String) : String :=
  ⟨(trimChars e.data).map Char.toLower⟩

/-- Sanitization applied by `PasswordSchema` (`z.string().trim()`). -/
def sanitizePassword (p : String) : String :=
  ⟨trimChars p.data⟩

/-- Executable stand-in for Zod's email-format validation. -/
def validEmail (e : String) : Bool :=
  (sanitizeEmail e).data.contains '@'

/-- Executable model of `PasswordSchema`'s rules: at least 8 characters,
an uppercase letter, a lowercase letter, a digit, and no whitespace. -/
def validPassword (p : String) : Bool :=
  let q := (sanitizePassword p).data
  8 ≤ q.length && q.any Char.isUpper && q.any Char.isLower
    && q.any (fun c => c.isDigit) && !q.any (fun c => c.isWhitespace)

/-- Model of `LoginSchema.parse` succeeding (`.safeParse` ignores this). -/
def loginSchemaOk (email password : String) : Bool :=
  validEmail email && validPassword password

/-- User view returned by the v1 `UserService.login` (`{ id, email, role }`). -/
structure UserViewV1 where
  id : Nat
  email : String
  role : String
deriving DecidableEq, Repr

/-- Login result: principal view, tokens and the new session id. -/
structure LoginOut (π : Type) where
  view : π
  accessToken : Token
  refreshToken : Token
  sessionId : Nat
deriving Repr

/-- Predicate for an active session row of a principal at time `now`, as
filtered by the v1 `count` call:
`{ userId, revoked: false, expiresAt: { gt: new Date() } }`. -/
def activeRow (pid now : Nat) (s : Session) : Bool :=
  s.principalId = pid && s.revoked = false && now < s.expiresAt

/-- Predicate for a non-revoked session row of a principal, as filtered by
every eviction query and by the v2 `count` call: `{ userId, revoked: false }`
(note: no expiry filter). -/
def nonRevokedRow (pid : Nat) (s : Session) : Bool :=
  s.principalId = pid && s.revoked = false

/-- Eviction step shared by all four login revisions: find the oldest
non-revoked session of the principal (`orderBy: { createdAt: 'asc' }`,
`take: 1` — with no expiry filter) and, if one exists, revoke it. -/
def evictOldest (pid : Nat) (l : List Session) : List Session :=
  match oldestWhere (nonRevokedRow pid) l with
  | some o => updateRevokeById o.id l
  | none => l

/-- Session-table transaction body of the v1 logins: count the active
sessions (with the expiry filter), evict the oldest non-revoked session
when the count reached the cap, then create the new row. -/
def capEvictAndCreateV1 (cap pid now : Nat) (row : Session) (l : List Session) : List Session :=
  let activeSessions := countWhere (activeRow pid now) l
  let l1 := if cap ≤ activeSessions then evictOldest pid l else l
  l1 ++ [row]

/-- Session-table transaction body of the v2 logins: identical to v1
except that the count has no expiry filter (`{ userId, revoked: false }`). -/
def capEvictAndCreateV2 (cap pid : Nat) (row : Session) (l : List Session) : List Session :=
  let activeSessions := countWhere (nonRevokedRow pid) l
  let l1 := if cap ≤ activeSessions then evictOldest pid l else l
  l1 ++ [row]

/-- Model of the first revision of `UserService.login`
(user.service.ts lines 51-156):
`LoginSchema.safeParse` (result discarded); `findFirst` by email; the
non-awaited `compare` (`comparePasses false`, so only a missing user fails
the credential check, after the 200ms delay); then, in a transaction with
cap 3: active-session count (with expiry filter), FIFO eviction over the
non-revoked sessions, minting of the access token
(payload `{ id, role, email, iat }`, 15m) and the refresh token
(payload `{ id }`, 30d), and creation of the session row. -/
def loginUserV1 (db : Db) (now : Nat) (email password : String) :
    CallOut (LoginOut UserViewV1) :=
  match db.users.find? (fun u => u.email = email) with
  | none =>
    ⟨.error (.api (.badRequest "Email o password errati" INVALID_REQUEST)), db, 200⟩
  | some user =>
    if !comparePasses false password user.password then
      ⟨.error (.api (.badRequest "Email o password errati" INVALID_REQUEST)), db, 200⟩
    else
      let accessToken := jwtSign user.id (some user.email) (some user.role) none USER_JWT_SECRET 900 now
      let refreshToken := jwtSign user.id none none none USER_REFRESH_TOKEN_SECRET 2592000 now
      let sessionId := db.nextUuid
      let row : Session :=
        ⟨db.nextRowId, refreshToken, user.id, sessionId, now, now + 2592000, false⟩
      let sessions' := capEvictAndCreateV1 3 user.id now row db.userSessions
      ⟨.ok ⟨⟨user.id, user.email, user.role⟩, accessToken, refreshToken, sessionId⟩,
        { db with
          userSessions := sessions'
          nextRowId := db.nextRowId + 1
          nextUuid := db.nextUuid + 1 }, 0⟩

/-- Admin view returned by both revisions of `AdminService.login`. -/
structure AdminView where
  id : Nat
  email : String
deriving DecidableEq, Repr

/-- Model of the first revision of `AdminService.login`
(admin.service.ts lines 30-109): same shape as the v1 user login with cap
2, admin secrets, a 5m access token (payload `{ id, email, iat }`) and a
7d refresh token (payload `{ id }`). The `compare` is again not awaited. -/
def loginAdminV1 (db : Db) (now : Nat) (email password : String) :
    CallOut (LoginOut AdminView) :=
  match db.admins.find? (fun a => a.email = email) with
  | none =>
    ⟨.error (.api (.badRequest "Email o password errati" INVALID_REQUEST)), db, 200⟩
  | some admin =>
    if !comparePasses false password admin.password then
      ⟨.error (.api (.badRequest "Email o password errati" INVALID_REQUEST)), db, 200⟩
    else
      let accessToken := jwtSign admin.id (some admin.email) none none ADMIN_JWT_SECRET 300 now
      let refreshToken := jwtSign admin.id none none none ADMIN_REFRESH_TOKEN_SECRET 604800 now
      let sessionId := db.nextUuid
      let row : Session :=
        ⟨db.nextRowId, refreshToken, admin.id, sessionId, now, now + 604800, false⟩
      let sessions' := capEvictAndCreateV1 2 admin.id now row db.adminSessions
      ⟨.ok ⟨⟨admin.id, admin.email⟩, accessToken, refreshToken, sessionId⟩,
        { db with
          adminSessions := sessions'
          nextRowId := db.nextRowId + 1
          nextUuid := db.nextUuid + 1 }, 0⟩

/-- User view returned by the v2 `UserService.login`: the selected user row
minus the password (`{ id, email, name, surname, isActive, role }`). -/
structure UserViewV2 where
  id : Nat
  email : String
  name : String
  surname : String
  isActive : Bool
  role : String
deriving DecidableEq, Repr

/-- Model of `update({ where: { id: uid }, data: { lastLogin: now } })` on
the `users` table. -/
def touchLastLogin (uid now : Nat) (users : List Principal) : List Principal :=
  users.map fun u => if u.id = uid then { u with lastLogin := some now } else u

/-- Model of the second revision of `UserService.login`
(user.service.ts lines 258-375):
`LoginSchema.parse` (throws `ZodError` on invalid input, sanitizes email
and password); `findUnique` by the sanitized email; a properly awaited
`compare` (missing user or wrong password both fail with the identical
BadRequest after the 200ms delay); the `isActive` check, performed only
after the credential check passed; then minting of the session id, access
token (`{ id, email, role }`, 15m) and refresh token
(`{ id, sessionId }`, 30d), and a transaction with cap 3 that updates the
user's `lastLogin`, counts the non-revoked sessions (no expiry filter),
evicts the oldest non-revoked session at the cap, and creates the row. -/
def loginUserV2 (db : Db) (now : Nat) (email password : String) :
    CallOut (LoginOut UserViewV2) :=
  if !loginSchemaOk email password then ⟨.error .zod, db, 0⟩
  else
    let sanitizedEmail := sanitizeEmail email
    let sanitizedPassword := sanitizePassword password
    match db.users.find? (fun u => u.email = sanitizedEmail) with
    | none =>
      ⟨.error (.api (.badRequest "Email o password errati" INVALID_REQUEST)), db, 200⟩
    | some user =>
      if !comparePasses true sanitizedPassword user.password then
        ⟨.error (.api (.badRequest "Email o password errati" INVALID_REQUEST)), db, 200⟩
      else if !user.isActive then
        ⟨.error (.api (.forbidden "Account non attivato" FORBIDDEN)), db, 0⟩
      else
        let sessionId := db.nextUuid
        let accessToken := jwtSign user.id (some user.email) (some user.role) none USER_JWT_SECRET 900 now
        let refreshToken := jwtSign user.id none none (some sessionId) USER_REFRESH_TOKEN_SECRET 2592000 now
        let expiresAt := now + 2592000
        let users' := touchLastLogin user.id now db.users
        let row : Session :=
          ⟨db.nextRowId, refreshToken, user.id, sessionId, now, expiresAt, false⟩
        let sessions' := capEvictAndCreateV2 3 user.id row db.userSessions
        ⟨.ok ⟨⟨user.id, user.email, user.name, user.surname, user.isActive, user.role⟩,
            accessToken, refreshToken, sessionId⟩,
          { db with
            users := users'
            userSessions := sessions'
            nextRowId := db.nextRowId + 1
            nextUuid := db.nextUuid + 1 }, 0⟩

/-- Model of the second revision of `AdminService.login`
(admin.service.ts lines 172-271): `LoginSchema.parse`; `findUnique` by the
sanitized email with select `{ id, email, password }`; awaited `compare`;
then session id, access token (`{ id, email }`, 15m) and refresh token
(`{ id, sessionId }`, 7d), and a transaction with cap 2 that counts the
non-revoked sessions, evicts the oldest non-revoked one at the cap, and
creates the row. No `isActive` flag exists for admins and no admin field
is updated. -/
def loginAdminV2 (db : Db) (now : Nat) (email password : String) :
    CallOut (LoginOut AdminView) :=
  if !loginSchemaOk email password then ⟨.error .zod, db, 0⟩
  else
    let sanitizedEmail := sanitizeEmail email
    let sanitizedPassword := sanitizePassword password
    match db.admins.find? (fun a => a.email = sanitizedEmail) with
    | none =>
      ⟨.error (.api (.badRequest "Email o password errati" INVALID_REQUEST)), db, 200⟩
    | some admin =>
      if !comparePasses true sanitizedPassword admin.password then
        ⟨.error (.api (.badRequest "Email o password errati" INVALID_REQUEST)), db, 200⟩
      else
        let sessionId := db.nextUuid
        let accessToken := jwtSign admin.id (some admin.email) none none ADMIN_JWT_SECRET 900 now
        let refreshToken := jwtSign admin.id none none (some sessionId) ADMIN_REFRESH_TOKEN_SECRET 604800 now
        let expiresAt := now + 604800
        let row : Session :=
          ⟨db.nextRowId, refreshToken, admin.id, sessionId, now, expiresAt, false⟩
        let sessions' := capEvictAndCreateV2 2 admin.id row db.adminSessions
        ⟨.ok ⟨⟨admin.id, admin.email⟩, accessToken, refreshToken, sessionId⟩,
          { db with
            adminSessions := sessions'
            nextRowId := db.nextRowId + 1
            nextUuid := db.nextUuid + 1 }, 0⟩

/-- Filter of the logout `updateMany`: the rows matching
`(sessionId, principalId, revoked: false)`. -/
def logoutMatch (uid sid : Nat) (s : Session) : Bool :=
  s.sessionId = sid && s.principalId = uid && s.revoked = false

/-- Model of the second revision of `UserService.logout`
(user.service.ts lines 383-404), with `req.user?.id` and the `sessionId`
cookie as `Option`s (`none` models the falsy cases): after the two guard
checks, a single conditional
`updateMany({ where: { userId, sessionId, revoked: false },
data: { revoked: true } })`; throws `NotFoundException` exactly when the
affected-row count is zero. -/
def logoutUserV2 (db : Db) (reqUserId : Option Nat) (sessionId : Option Nat) :
    CallOut Unit :=
  match reqUserId with
  | none => ⟨.error (.api (.badRequest "Utente non autenticato" INVALID_REQUEST)), db, 0⟩
  | some uid =>
    match sessionId with
    | none => ⟨.error (.api (.badRequest "SessionId non valida" INVALID_REQUEST)), db, 0⟩
    | some sid =>
      let updated := updateManyRevoke (logoutMatch uid sid) db.userSessions
      let db' := { db with userSessions := updated.fst }
      if updated.snd = 0 then
        ⟨.error (.api (.notFound "Sessione non trovata o già revocata" NOT_FOUND)), db', 0⟩
      else
        ⟨.ok (), db', 0⟩

/-- Model of the second revision of `AdminService.logout`
(admin.service.ts lines 279-302): the `sessionId` guard precedes the
authentication guard; otherwise identical to the user logout, on the
admin session table. -/
def logoutAdminV2 (db : Db) (sessionId : Option Nat) (reqAdminId : Option Nat) :
    CallOut Unit :=
  match sessionId with
  | none => ⟨.error (.api (.badRequest "SessionId non valido" INVALID_REQUEST)), db, 0⟩
  | some sid =>
    match reqAdminId with
    | none => ⟨.error (.api (.forbidden "Accesso negato: admin non autenticato" FORBIDDEN)), db, 0⟩
    | some aid =>
      let updated := updateManyRevoke (logoutMatch aid sid) db.adminSessions
      let db' := { db with adminSessions := updated.fst }
      if updated.snd = 0 then
        ⟨.error (.api (.notFound "Sessione non trovata o già revocata" NOT_FOUND)), db', 0⟩
      else
        ⟨.ok (), db', 0⟩

/-- One call into the auth core, with the wall-clock second at which it
executes; used to reason about arbitrary interleavings of subsequent
operations after a token rotation. -/
inductive AuthOp where
  | opLoginUserV1 (now : Nat) (email password : String)
  | opLoginUserV2 (now : Nat) (email password : String)
  | opLoginAdminV1 (now : Nat) (email password : String)
  | opLoginAdminV2 (now : Nat) (email password : String)
  | opRefreshUser (now : Nat) (cookie : Option Token)
  | opRefreshAdmin (now : Nat) (cookie : Option Token)
  | opLogoutUser (reqUserId : Option Nat) (sessionId : Option Nat)
  | opLogoutAdmin (sessionId : Option Nat) (reqAdminId : Option Nat)
deriving Repr

/-- Wall-clock second at which an operation runs (`none` for logouts,
which never mint a token). -/
def AuthOp.mintTime : AuthOp → Option Nat
  | .opLoginUserV1 now _ _ => some now
  | .opLoginUserV2 now _ _ => some now
  | .opLoginAdminV1 now _ _ => some now
  | .opLoginAdminV2 now _ _ => some now
  | .opRefreshUser now _ => some now
  | .opRefreshAdmin now _ => some now
  | .opLogoutUser _ _ => none
  | .opLogoutAdmin _ _ => none

/-- Database state after an operation (its returned value discarded). -/
def applyOp (db : Db) : AuthOp → Db
  | .opLoginUserV1 now email pw => (loginUserV1 db now email pw).db
  | .opLoginUserV2 now email pw => (loginUserV2 db now email pw).db
  | .opLoginAdminV1 now email pw => (loginAdminV1 db now email pw).db
  | .opLoginAdminV2 now email pw => (loginAdminV2 db now email pw).db
  | .opRefreshUser now cookie => (handleTokenRefresh userAuthConfig db now cookie).db
  | .opRefreshAdmin now cookie => (handleTokenRefresh adminAuthConfig db now cookie).db
  | .opLogoutUser uid sid => (logoutUserV2 db uid sid).db
  | .opLogoutAdmin sid aid => (logoutAdminV2 db sid aid).db

/-- Database state after a sequence of operations. -/
def applyOps (db : Db) (ops : List AuthOp) : Db :=
  ops.foldl applyOp db

/-- A token string is dead in a session table when every row carrying it
is revoked; `findRefreshToken` then cannot return it. -/
def noLiveToken (t : Token) (l : List Session) : Prop :=
  ∀ s ∈ l, s.token = t → s.revoked = true

/-- Session table with every row carrying a given token string removed:
the state in which a replayed token is simply unknown to the store. -/
def eraseTokenRows (t : Token) (l : List Session) : List Session :=
  l.filter (fun s => s.token ≠ t)

lemma findFirstWhere_some {p : Session → Bool} {l : List Session} {s : Session}
    (h : findFirstWhere p l = some s) : p s = true := by
  exact List.find?_some h

lemma findFirstWhere_mem {p : Session → Bool} {l : List Session} {s : Session}
    (h : findFirstWhere p l = some s) : s ∈ l := by
  exact List.mem_of_find?_eq_some h

lemma findRefreshToken_revoked_false {cfg : AuthConfig} {db : Db} {t : Token}
    {st : StoredTokenView} (h : findRefreshToken cfg db t = some st) :
    st.revoked = false := by
  unfold findRefreshToken at h
  cases hf : findFirstWhere (fun s => s.token = t && s.revoked = false) (sessionsFor cfg db) with
  | none => rw [hf] at h; exact absurd h (by simp)
  | some s =>
    rw [hf] at h
    have hp := findFirstWhere_some hf
    simp only [Bool.and_eq_true, decide_eq_true_eq] at hp
    cases h
    exact hp.2

lemma noLive_findRefreshToken_none {cfg : AuthConfig} {db : Db} {t : Token}
    (h : noLiveToken t (sessionsFor cfg db)) : findRefreshToken cfg db t = none := by
  unfold findRefreshToken
  have : findFirstWhere (fun s => s.token = t && s.revoked = false) (sessionsFor cfg db) = none := by
    unfold findFirstWhere
    rw [List.find?_eq_none]
    intro s hs
    by_cases ht : s.token = t
    · have := h s hs ht
      simp [ht, this]
    · simp [ht]
  rw [this]

lemma erased_findRefreshToken_none {cfg : AuthConfig} {db : Db} {t : Token} :
    findRefreshToken cfg (setSessionsFor cfg db (eraseTokenRows t (sessionsFor cfg db))) t = none := by
  unfold findRefreshToken
  have hset : sessionsFor cfg (setSessionsFor cfg db (eraseTokenRows t (sessionsFor cfg db)))
      = eraseTokenRows t (sessionsFor cfg db) := by
    unfold sessionsFor setSessionsFor
    by_cases h : cfg.entity = "ADMIN" <;> simp [h]
  rw [hset]
  have : findFirstWhere (fun s => s.token = t && s.revoked = false)
      (eraseTokenRows t (sessionsFor cfg db)) = none := by
    unfold findFirstWhere
    rw [List.find?_eq_none]
    intro s hs
    unfold eraseTokenRows at hs
    have hne : s.token ≠ t := by
      have := List.of_mem_filter hs
      simpa using this
    simp [hne]
  rw [this]

/-- C10. Unreachable revoked branch in refresh: `findRefreshToken` (which
filters on `revoked: false` in both the user and the admin config) never
returns a view with `revoked = true`, so the explicit `storedToken.revoked`
test inside `handleTokenRefresh` never fires; consequently, when every
stored row carrying a replayed token is revoked, the refresh call behaves
exactly — same returned/thrown value, database untouched — as if the token
were absent from the store altogether. -/
theorem revoked_branch_unreachable :
    (∀ (cfg : AuthConfig) (db : Db) (t : Token) (st : StoredTokenView),
      findRefreshToken cfg db t = some st → st.revoked = false) ∧
    (∀ (cfg : AuthConfig) (db : Db) (now : Nat) (t : Token),
      noLiveToken t (sessionsFor cfg db) →
        (handleTokenRefresh cfg db now (some t)).result =
          (handleTokenRefresh cfg
            (setSessionsFor cfg db (eraseTokenRows t (sessionsFor cfg db))) now (some t)).result ∧
        (handleTokenRefresh cfg db now (some t)).db = db) := by
  constructor
  · intro cfg db t st h
    exact findRefreshToken_revoked_false h
  · intro cfg db now t h
    have h1 := noLive_findRefreshToken_none h
    have h2 := @erased_findRefreshToken_none cfg db t
    unfold handleTokenRefresh
    cases hv : jwtVerify t cfg.refreshSecret now with
    | error e => simp [hv]
    | ok pid => simp [hv, h1, h2]

/-- Concrete instantiation of `revoked_branch_unreachable`: a store whose
only row carries the replayed token but is revoked. -/
theorem revoked_branch_unreachable_witness :
    (let t : Token := ⟨1, none, none, none, 1, 0, 2592000⟩
     let row : Session := ⟨0, t, 1, 0, 0, 2592000, true⟩
     let db : Db := ⟨[], [], [row], [], 1, 1⟩
     (handleTokenRefresh userAuthConfig db 5 (some t)).result =
       (handleTokenRefresh userAuthConfig
         (setSessionsFor userAuthConfig db
           (eraseTokenRows t (sessionsFor userAuthConfig db))) 5 (some t)).result ∧
     (handleTokenRefresh userAuthConfig db 5 (some t)).db = db) := by
  exact revoked_branch_unreachable.2 userAuthConfig ⟨[], [], [⟨0, ⟨1, none, none, none, 1, 0, 2592000⟩, 1, 0, 0, 2592000, true⟩], [], 1, 1⟩ 5
    ⟨1, none, none, none, 1, 0, 2592000⟩ (by unfold noLiveToken; decide)

lemma jwtVerify_error_cases {t : Token} {sec now : Nat} {e : Thrown}
    (h : jwtVerify t sec now = .error e) :
    e = .jwtInvalid ∨ e = .jwtTokenExpired := by
  unfold jwtVerify at h
  by_cases h1 : t.secret ≠ sec
  · simp [h1] at h
    exact Or.inl h.symm
  · by_cases h2 : t.exp ≤ now
    · simp [h1, h2] at h
      exact Or.inr h.symm
    · simp [h1, h2] at h

/-- C3, counterexample. The claim states that a refresh whose token fails
verification surfaces the same Unauthorized outcome as the store-level
failures. Concretely: a token signed with a foreign secret (here: an
admin-signed token replayed on the user refresh endpoint) makes
`jwt.verify` throw a `JsonWebTokenError`, which `errorHandler` translates
into a 500 `InternalServerError` — not a 401 Unauthorized. -/
theorem refresh_unauthorized_on_all_failures_counterexample :
    (refreshTokenEndpoint ⟨[], [], [], [], 0, 0⟩ 0
        (some ⟨1, none, none, none, ADMIN_REFRESH_TOKEN_SECRET, 0, 604800⟩)).fst =
      .error (.internalServerError "Errore del server" INTERNAL_SERVER_ERROR) ∧
    ApiError.statusCode (.internalServerError "Errore del server" INTERNAL_SERVER_ERROR) = 500 := by
  constructor
  · rfl
  · rfl

/-- C3, amended. On the `/refresh` endpoint: when `jwt.verify` fails
(signature or JWT expiry), the thrown `jsonwebtoken` error is translated
by `errorHandler` into the generic 500 `InternalServerError`; when
verification succeeds, the three store-level failures — stored
RefreshSession absent, `expiresAt < now`, or `revoked == true` — all
produce the identical 401 `UnauthorizedException("Invalid refresh
token")`, externally indistinguishable from one another. -/
theorem refresh_failure_conditions_amended (db : Db) (now : Nat) (t : Token) :
    (∀ e, jwtVerify t USER_REFRESH_TOKEN_SECRET now = .error e →
      (refreshTokenEndpoint db now (some t)).fst =
        .error (.internalServerError "Errore del server" INTERNAL_SERVER_ERROR)) ∧
    (∀ pid, jwtVerify t USER_REFRESH_TOKEN_SECRET now = .ok pid →
      findRefreshToken userAuthConfig db t = none →
      (refreshTokenEndpoint db now (some t)).fst =
        .error (.unauthorized "Invalid refresh token" UNAUTHORIZED)) ∧
    (∀ pid st, jwtVerify t USER_REFRESH_TOKEN_SECRET now = .ok pid →
      findRefreshToken userAuthConfig db t = some st →
      (st.expiresAt < now ∨ st.revoked = true) →
      (refreshTokenEndpoint db now (some t)).fst =
        .error (.unauthorized "Invalid refresh token" UNAUTHORIZED)) := by
  refine ⟨?_, ?_, ?_⟩
  · intro e hv
    have hv' : jwtVerify t userAuthConfig.refreshSecret now = .error e := hv
    rcases jwtVerify_error_cases hv with h | h <;> subst h <;>
      simp [refreshTokenEndpoint, handleTokenRefresh, hv', errorHandlerWrap]
  · intro pid hv hfind
    have hv' : jwtVerify t userAuthConfig.refreshSecret now = .ok pid := hv
    simp [refreshTokenEndpoint, handleTokenRefresh, hv', hfind, errorHandlerWrap]
  · intro pid st hv hfind hbad
    have hv' : jwtVerify t userAuthConfig.refreshSecret now = .ok pid := hv
    have hcond : (st.expiresAt < now ∨ st.revoked = true) := hbad
    simp [refreshTokenEndpoint, handleTokenRefresh, hv', hfind, hcond, errorHandlerWrap]

/-- Concrete instantiation of `refresh_failure_conditions_amended`: an
expired stored session yields the 401 "Invalid refresh token". -/
theorem refresh_failure_conditions_amended_witness :
    (refreshTokenEndpoint
        ⟨[], [], [⟨0, ⟨1, none, none, none, 1, 0, 2592000⟩, 1, 0, 0, 10, false⟩], [], 1, 1⟩
        20 (some ⟨1, none, none, none, 1, 0, 2592000⟩)).fst =
      .error (.unauthorized "Invalid refresh token" UNAUTHORIZED) := by
  exact (refresh_failure_conditions_amended
      ⟨[], [], [⟨0, ⟨1, none, none, none, 1, 0, 2592000⟩, 1, 0, 0, 10, false⟩], [], 1, 1⟩
      20 ⟨1, none, none, none, 1, 0, 2592000⟩).2.2 1 ⟨0, 10, false⟩ (by rfl) (by rfl)
    (Or.inl (by decide))

/-- C4. The v1 `UserService.login` does not await `bcrypt.compare`, so the
credential check degenerates to "does a user with this email exist": with
a stored hash for the password "Correct1x", logging in with the wrong
password "Wrongpass1" nevertheless succeeds and issues tokens, although
the comparison itself rejects that password — while the v2
`AdminService.login` (which awaits the comparison, admin.service.ts line
187) correctly fails with the generic InvalidCredentials BadRequest. This
contradicts the service's own documentation ("Verifica credenziali",
"@throws ... per credenziali errate"). -/
theorem login_wrong_password_succeeds_bug :
    bcryptCompare "Wrongpass1" (bcryptHash "Correct1x") = false ∧
    exceptIsOk (loginUserV1
      ⟨[⟨1, "a@b.c", bcryptHash "Correct1x", "N", "S", true, "STUDENT", none⟩],
        [], [], [], 0, 0⟩ 0 "a@b.c" "Wrongpass1").result = true ∧
    (loginAdminV2 ⟨[], [⟨1, "a@b.c", bcryptHash "Correct1x"⟩], [], [], 0, 0⟩
        0 "a@b.c" "Wrongpass1").result =
      .error (.api (.badRequest "Email o password errati" INVALID_REQUEST)) := by
  refine ⟨rfl, rfl, rfl⟩

/-- C6. Inactive-account check ordering in the v2 `UserService.login`:
when the user exists and the (awaited) password comparison succeeds but
`isActive` is false, the login fails with the `AccountInactive` Forbidden
error; when the password comparison fails, the login fails with the
generic InvalidCredentials BadRequest regardless of the `isActive` flag —
so a wrong password on an inactive account never discloses inactivity. -/
theorem inactive_check_after_credentials (db : Db) (now : Nat) (email password : String)
    (u : Principal)
    (hschema : loginSchemaOk email password = true)
    (hfind : db.users.find? (fun x => x.email = sanitizeEmail email) = some u) :
    (bcryptCompare (sanitizePassword password) u.password = true → u.isActive = false →
      (loginUserV2 db now email password).result =
        .error (.api (.forbidden "Account non attivato" FORBIDDEN))) ∧
    (bcryptCompare (sanitizePassword password) u.password = false →
      (loginUserV2 db now email password).result =
        .error (.api (.badRequest "Email o password errati" INVALID_REQUEST))) := by
  constructor
  · intro hcmp hinact
    simp [loginUserV2, hschema, hfind, comparePasses, hcmp, hinact]
  · intro hcmp
    simp [loginUserV2, hschema, hfind, comparePasses, hcmp]

/-- Concrete instantiation of `inactive_check_after_credentials`: an
inactive user with the correct password gets the AccountInactive error; the
same user with a wrong password gets the InvalidCredentials error. -/
theorem inactive_check_after_credentials_witness :
    (loginUserV2
        ⟨[⟨1, "a@b.c", bcryptHash "Password1", "N", "S", false, "STUDENT", none⟩],
          [], [], [], 0, 0⟩ 0 "a@b.c" "Password1").result =
      .error (.api (.forbidden "Account non attivato" FORBIDDEN)) ∧
    (loginUserV2
        ⟨[⟨1, "a@b.c", bcryptHash "Password1", "N", "S", false, "STUDENT", none⟩],
          [], [], [], 0, 0⟩ 0 "a@b.c" "Password2").result =
      .error (.api (.badRequest "Email o password errati" INVALID_REQUEST)) := by
  constructor
  · exact (inactive_check_after_credentials
      ⟨[⟨1, "a@b.c", bcryptHash "Password1", "N", "S", false, "STUDENT", none⟩], [], [], [], 0, 0⟩
      0 "a@b.c" "Password1" ⟨1, "a@b.c", bcryptHash "Password1", "N", "S", false, "STUDENT", none⟩
      (by decide) (by decide)).1 (by decide) (by decide)
  · exact (inactive_check_after_credentials
      ⟨[⟨1, "a@b.c", bcryptHash "Password1", "N", "S", false, "STUDENT", none⟩], [], [], [], 0, 0⟩
      0 "a@b.c" "Password2" ⟨1, "a@b.c", bcryptHash "Password1", "N", "S", false, "STUDENT", none⟩
      (by decide) (by decide)).2 (by decide)

lemma countWhere_revoked_after_updateMany (uid sid : Nat) (l : List Session) :
    countWhere (logoutMatch uid sid)
      (l.map fun s => if logoutMatch uid sid s then revokeRow s else s) = 0 := by
  induction l with
  | nil => rfl
  | cons a l ih =>
    by_cases h : logoutMatch uid sid a = true
    · have hrev : logoutMatch uid sid (revokeRow a) = false := by
        simp [logoutMatch, revokeRow]
      simp [countWhere, List.filter] at ih ⊢
      simp [h, hrev]
      exact ih
    · have h' : logoutMatch uid sid a = false := by
        cases hb : logoutMatch uid sid a
        · rfl
        · exact absurd hb h
      simp [countWhere, List.filter] at ih ⊢
      simp [h']
      exact ih

/-- C7. Logout semantics (v2 `UserService.logout` and `AdminService.logout`):
given an authenticated principal id and a session id, the call performs a
single conditional `updateMany` that revokes exactly the rows matching
`(sessionId, principalId, revoked=false)` and touches nothing else in the
database; it fails with the NotFound error if and only if zero rows
matched — making "never existed", "owned by another principal" and
"already revoked" indistinguishable — and a second call with the same
arguments after a successful one always returns NotFound. -/
theorem logout_conditional_revoke (db : Db) (uid sid : Nat) :
    ((logoutUserV2 db (some uid) (some sid)).result =
        .error (.api (.notFound "Sessione non trovata o già revocata" NOT_FOUND)) ↔
      countWhere (logoutMatch uid sid) db.userSessions = 0) ∧
    (logoutUserV2 db (some uid) (some sid)).db.userSessions =
      (db.userSessions.map fun s => if logoutMatch uid sid s then revokeRow s else s) ∧
    (logoutUserV2 db (some uid) (some sid)).db.users = db.users ∧
    (logoutUserV2 db (some uid) (some sid)).db.admins = db.admins ∧
    (logoutUserV2 db (some uid) (some sid)).db.adminSessions = db.adminSessions ∧
    (exceptIsOk (logoutUserV2 db (some uid) (some sid)).result = true →
      (logoutUserV2 (logoutUserV2 db (some uid) (some sid)).db (some uid) (some sid)).result =
        .error (.api (.notFound "Sessione non trovata o già revocata" NOT_FOUND))) ∧
    (exceptIsOk (logoutAdminV2 db (some sid) (some uid)).result = true →
      (logoutAdminV2 (logoutAdminV2 db (some sid) (some uid)).db (some sid) (some uid)).result =
        .error (.api (.notFound "Sessione non trovata o già revocata" NOT_FOUND))) := by
  refine ⟨?_, ?_, ?_, ?_, ?_, ?_, ?_⟩
  · by_cases hc : countWhere (logoutMatch uid sid) db.userSessions = 0 <;>
      simp [logoutUserV2, updateManyRevoke, hc]
  · by_cases hc : countWhere (logoutMatch uid sid) db.userSessions = 0 <;>
      simp [logoutUserV2, updateManyRevoke, hc]
  · by_cases hc : countWhere (logoutMatch uid sid) db.userSessions = 0 <;>
      simp [logoutUserV2, updateManyRevoke, hc]
  · by_cases hc : countWhere (logoutMatch uid sid) db.userSessions = 0 <;>
      simp [logoutUserV2, updateManyRevoke, hc]
  · by_cases hc : countWhere (logoutMatch uid sid) db.userSessions = 0 <;>
      simp [logoutUserV2, updateManyRevoke, hc]
  · intro hok
    by_cases hc : countWhere (logoutMatch uid sid) db.userSessions = 0
    · simp [logoutUserV2, updateManyRevoke, hc, exceptIsOk] at hok
    · simp [logoutUserV2, updateManyRevoke, hc,
        countWhere_revoked_after_updateMany uid sid db.userSessions]
  · intro hok
    by_cases hc : countWhere (logoutMatch uid sid) db.adminSessions = 0
    · simp [logoutAdminV2, updateManyRevoke, hc, exceptIsOk] at hok
    · simp [logoutAdminV2, updateManyRevoke, hc,
        countWhere_revoked_after_updateMany uid sid db.adminSessions]

/-- Concrete instantiation of `logout_conditional_revoke`: one live
session; the first logout succeeds, the repeated logout returns NotFound. -/
theorem logout_conditional_revoke_witness :
    (logoutUserV2
        (logoutUserV2
          ⟨[], [], [⟨0, ⟨1, none, none, none, 1, 0, 100⟩, 1, 5, 0, 100, false⟩], [], 1, 1⟩
          (some 1) (some 5)).db
        (some 1) (some 5)).result =
      .error (.api (.notFound "Sessione non trovata o già revocata" NOT_FOUND)) := by
  exact (logout_conditional_revoke
      ⟨[], [], [⟨0, ⟨1, none, none, none, 1, 0, 100⟩, 1, 5, 0, 100, false⟩], [], 1, 1⟩
      1 5).2.2.2.2.2.1 (by decide)

lemma sessionsFor_set (cfg : AuthConfig) (db : Db) (l : List Session) :
    sessionsFor cfg (setSessionsFor cfg db l) = l := by
  unfold sessionsFor setSessionsFor
  by_cases h : cfg.entity = "ADMIN" <;> simp [h]

lemma sessionsFor_congr {cfg : AuthConfig} {db1 db2 : Db}
    (hu : db1.userSessions = db2.userSessions)
    (ha : db1.adminSessions = db2.adminSessions) :
    sessionsFor cfg db1 = sessionsFor cfg db2 := by
  unfold sessionsFor
  by_cases h : cfg.entity = "ADMIN" <;> simp [h, hu, ha]

lemma storeRefreshToken_sessions (cfg : AuthConfig) (db : Db) (t : Token)
    (pid sid expAt now : Nat) :
    sessionsFor cfg (storeRefreshToken cfg db t pid sid expAt now) =
      sessionsFor cfg db ++ [⟨db.nextRowId, t, pid, sid, now, expAt, false⟩] := by
  unfold storeRefreshToken
  have h1 : sessionsFor cfg
      { setSessionsFor cfg db (sessionsFor cfg db ++ [⟨db.nextRowId, t, pid, sid, now, expAt, false⟩])
        with nextRowId := db.nextRowId + 1 } =
      sessionsFor cfg (setSessionsFor cfg db
        (sessionsFor cfg db ++ [⟨db.nextRowId, t, pid, sid, now, expAt, false⟩])) :=
    sessionsFor_congr rfl rfl
  rw [h1, sessionsFor_set]

lemma jwtVerify_ok {t : Token} {sec now pid : Nat}
    (h : jwtVerify t sec now = .ok pid) :
    pid = t.payloadId ∧ t.secret = sec ∧ now < t.exp := by
  unfold jwtVerify at h
  by_cases h1 : t.secret ≠ sec
  · simp [h1] at h
  · by_cases h2 : t.exp ≤ now
    · simp [h1, h2] at h
    · simp [h1, h2] at h
      exact ⟨h.symm, not_not.mp h1, Nat.lt_of_not_le h2⟩

/-- C8, counterexample. The claim states that every refresh token issued by
refresh-rotation carries both the principal id and the session id in its
payload. Concretely: rotating a valid stored token mints the replacement
with payload `{ id: refreshPayload.id }` only — its `sessionId` claim is
absent (`none`), even though a fresh session id (here 1) was generated and
stored in the new RefreshSession row. -/
theorem refresh_token_payload_counterexample :
    (handleTokenRefresh userAuthConfig
        ⟨[], [], [⟨0, ⟨7, none, none, none, 1, 0, 2592000⟩, 7, 0, 0, 2592000, false⟩],
          [], 1, 1⟩ 1 (some ⟨7, none, none, none, 1, 0, 2592000⟩)).result =
      .ok ⟨7, jwtSign 7 none none none USER_JWT_SECRET 900 1,
        jwtSign 7 none none none USER_REFRESH_TOKEN_SECRET 2592000 1, 1⟩ ∧
    (jwtSign 7 none none none USER_REFRESH_TOKEN_SECRET 2592000 1).payloadSessionId = none := by
  exact ⟨rfl, rfl⟩

/-- C8, amended. A successful refresh-rotation mints its replacement
refresh token bound to the claimed principal id but with no session-id
claim in the payload (`{ id }` only); the binding to the newly minted
session id exists only in the persisted RefreshSession row, which records
both the principal id and the new session id. Refresh tokens issued by the
v2 logins do carry both claims (`{ id, sessionId }`), while v1-login
refresh tokens also carry only `{ id }`. -/
theorem refresh_token_payload_amended :
    (∀ (cfg : AuthConfig) (db : Db) (now : Nat) (t : Token) (r : RefreshOut),
      (handleTokenRefresh cfg db now (some t)).result = .ok r →
        r.newRefreshToken.payloadId = t.payloadId ∧
        r.newRefreshToken.payloadSessionId = none ∧
        (∃ s ∈ sessionsFor cfg (handleTokenRefresh cfg db now (some t)).db,
          s.token = r.newRefreshToken ∧ s.principalId = t.payloadId ∧
          s.sessionId = r.newSessionId)) ∧
    (∀ (db : Db) (now : Nat) (email password : String) (r : LoginOut UserViewV2),
      (loginUserV2 db now email password).result = .ok r →
        r.refreshToken.payloadId = r.view.id ∧
        r.refreshToken.payloadSessionId = some r.sessionId) ∧
    (∀ (db : Db) (now : Nat) (email password : String) (r : LoginOut UserViewV1),
      (loginUserV1 db now email password).result = .ok r →
        r.refreshToken.payloadSessionId = none) := by
  refine ⟨?_, ?_, ?_⟩
  · intro cfg db now t r h
    simp only [handleTokenRefresh] at h ⊢
    cases hv : jwtVerify t cfg.refreshSecret now with
    | error e => simp [hv] at h
    | ok pid =>
      have hpid := (jwtVerify_ok hv).1
      cases hfind : findRefreshToken cfg db t with
      | none => simp [hv, hfind] at h
      | some st =>
        by_cases hbad : st.expiresAt < now ∨ st.revoked = true
        · simp [hv, hfind, hbad] at h
        · simp only [hv, hfind] at h ⊢
          simp [hbad] at h ⊢
          cases h
          subst hpid
          refine ⟨rfl, rfl, ?_⟩
          refine ⟨⟨(revokeRefreshToken cfg db st.id).nextRowId,
            jwtSign t.payloadId none none none cfg.refreshSecret (cfg.refreshDuration * 86400) now,
            t.payloadId, (revokeRefreshToken cfg db st.id).nextUuid, now,
            now + cfg.refreshDuration * 86400, false⟩, ?_, rfl, rfl, rfl⟩
          have hcongr : sessionsFor cfg
              { storeRefreshToken cfg (revokeRefreshToken cfg db st.id)
                  (jwtSign t.payloadId none none none cfg.refreshSecret (cfg.refreshDuration * 86400) now)
                  t.payloadId (revokeRefreshToken cfg db st.id).nextUuid
                  (now + cfg.refreshDuration * 86400) now
                with nextUuid := (revokeRefreshToken cfg db st.id).nextUuid + 1 } =
              sessionsFor cfg (storeRefreshToken cfg (revokeRefreshToken cfg db st.id)
                  (jwtSign t.payloadId none none none cfg.refreshSecret (cfg.refreshDuration * 86400) now)
                  t.payloadId (revokeRefreshToken cfg db st.id).nextUuid
                  (now + cfg.refreshDuration * 86400) now) :=
            sessionsFor_congr rfl rfl
          rw [hcongr, storeRefreshToken_sessions]
          exact List.mem_append_right _ (List.mem_singleton.mpr rfl)
  · intro db now email password r h
    simp only [loginUserV2] at h
    by_cases hs : loginSchemaOk email password = true
    · simp only [hs] at h
      cases hfind : db.users.find? (fun u => u.email = sanitizeEmail email) with
      | none => simp [hfind] at h
      | some u =>
        simp only [hfind] at h
        by_cases hcmp : comparePasses true (sanitizePassword password) u.password = true
        · by_cases hact : u.isActive = true
          · simp [hcmp, hact] at h
            cases h
            exact ⟨rfl, rfl⟩
          · simp [hcmp, hact] at h
        · simp [hcmp] at h
    · simp [hs] at h
  · intro db now email password r h
    simp only [loginUserV1] at h
    cases hfind : db.users.find? (fun u => u.email = email) with
    | none => simp [hfind] at h
    | some u =>
      simp [hfind, comparePasses] at h
      cases h
      rfl

/-- Concrete instantiation of `refresh_token_payload_amended`: the rotated
store contains a row binding the new token to principal 7 and session 1. -/
theorem refresh_token_payload_amended_witness :
    ∃ s ∈ sessionsFor userAuthConfig
        (handleTokenRefresh userAuthConfig
          ⟨[], [], [⟨0, ⟨7, none, none, none, 1, 0, 2592000⟩, 7, 0, 0, 2592000, false⟩],
            [], 1, 1⟩ 1 (some ⟨7, none, none, none, 1, 0, 2592000⟩)).db,
      s.token = jwtSign 7 none none none USER_REFRESH_TOKEN_SECRET 2592000 1 ∧
      s.principalId = 7 ∧ s.sessionId = 1 := by
  exact (refresh_token_payload_amended.1 userAuthConfig
    ⟨[], [], [⟨0, ⟨7, none, none, none, 1, 0, 2592000⟩, 7, 0, 0, 2592000, false⟩], [], 1, 1⟩
    1 ⟨7, none, none, none, 1, 0, 2592000⟩
    ⟨7, jwtSign 7 none none none USER_JWT_SECRET 900 1,
      jwtSign 7 none none none USER_REFRESH_TOKEN_SECRET 2592000 1, 1⟩ rfl).2.2

/-- C9, counterexample. The claim states that no login call mutates the
principal row. Concretely: a successful v2 `UserService.login` runs
`tx.user.update({ data: { lastLogin: new Date() } })` inside its
transaction, so the stored user row changes (its `lastLogin` field is set
to the login time). -/
theorem login_no_principal_mutation_counterexample :
    exceptIsOk (loginUserV2
        ⟨[⟨1, "a@b.c", bcryptHash "Password1", "N", "S", true, "STUDENT", none⟩],
          [], [], [], 0, 0⟩ 5 "a@b.c" "Password1").result = true ∧
    (loginUserV2
        ⟨[⟨1, "a@b.c", bcryptHash "Password1", "N", "S", true, "STUDENT", none⟩],
          [], [], [], 0, 0⟩ 5 "a@b.c" "Password1").db.users ≠
      [⟨1, "a@b.c", bcryptHash "Password1", "N", "S", true, "STUDENT", none⟩] := by
  exact ⟨rfl, by decide⟩

/-- C9, amended. The v1 logins (user and admin) and the v2 admin login
leave the principal tables completely unchanged, successful or not; the v2
user login leaves them unchanged on every failure, and on success rewrites
the user table only through `touchLastLogin` — the logged-in user's
`lastLogin` field is set to the login time and every other field of every
row is untouched (every row of a touched table is either an original row
or an original row with only `lastLogin` replaced). -/
theorem login_principal_frame (db : Db) (now : Nat) (email password : String) :
    (loginUserV1 db now email password).db.users = db.users ∧
    (loginUserV1 db now email password).db.admins = db.admins ∧
    (loginAdminV1 db now email password).db.users = db.users ∧
    (loginAdminV1 db now email password).db.admins = db.admins ∧
    (loginAdminV2 db now email password).db.users = db.users ∧
    (loginAdminV2 db now email password).db.admins = db.admins ∧
    (loginUserV2 db now email password).db.admins = db.admins ∧
    (exceptIsOk (loginUserV2 db now email password).result = false →
      (loginUserV2 db now email password).db.users = db.users) ∧
    (∀ u, db.users.find? (fun x => x.email = sanitizeEmail email) = some u →
      exceptIsOk (loginUserV2 db now email password).result = true →
      (loginUserV2 db now email password).db.users = touchLastLogin u.id now db.users) ∧
    (∀ (uid t : Nat) (us : List Principal) (v' : Principal), v' ∈ touchLastLogin uid t us →
      v' ∈ us ∨ ∃ v ∈ us, v.id = uid ∧ v' = { v with lastLogin := some t }) := by
  refine ⟨?_, ?_, ?_, ?_, ?_, ?_, ?_, ?_, ?_, ?_⟩
  · cases hfind : db.users.find? (fun u => u.email = email) with
    | none => simp [loginUserV1, hfind]
    | some u => simp [loginUserV1, hfind, comparePasses]
  · cases hfind : db.users.find? (fun u => u.email = email) with
    | none => simp [loginUserV1, hfind]
    | some u => simp [loginUserV1, hfind, comparePasses]
  · cases hfind : db.admins.find? (fun a => a.email = email) with
    | none => simp [loginAdminV1, hfind]
    | some a => simp [loginAdminV1, hfind, comparePasses]
  · cases hfind : db.admins.find? (fun a => a.email = email) with
    | none => simp [loginAdminV1, hfind]
    | some a => simp [loginAdminV1, hfind, comparePasses]
  · by_cases hs : loginSchemaOk email password = true
    · cases hfind : db.admins.find? (fun a => a.email = sanitizeEmail email) with
      | none => simp [loginAdminV2, hs, hfind]
      | some a =>
        by_cases hcmp : comparePasses true (sanitizePassword password) a.password = true <;>
          simp [loginAdminV2, hs, hfind, hcmp]
    · simp [loginAdminV2, hs]
  · by_cases hs : loginSchemaOk email password = true
    · cases hfind : db.admins.find? (fun a => a.email = sanitizeEmail email) with
      | none => simp [loginAdminV2, hs, hfind]
      | some a =>
        by_cases hcmp : comparePasses true (sanitizePassword password) a.password = true <;>
          simp [loginAdminV2, hs, hfind, hcmp]
    · simp [loginAdminV2, hs]
  · by_cases hs : loginSchemaOk email password = true
    · cases hfind : db.users.find? (fun u => u.email = sanitizeEmail email) with
      | none => simp [loginUserV2, hs, hfind]
      | some u =>
        by_cases hcmp : comparePasses true (sanitizePassword password) u.password = true
        · by_cases hact : u.isActive = true <;>
            simp [loginUserV2, hs, hfind, hcmp, hact]
        · simp [loginUserV2, hs, hfind, hcmp]
    · simp [loginUserV2, hs]
  · intro hfail
    by_cases hs : loginSchemaOk email password = true
    · cases hfind : db.users.find? (fun u => u.email = sanitizeEmail email) with
      | none => simp [loginUserV2, hs, hfind]
      | some u =>
        by_cases hcmp : comparePasses true (sanitizePassword password) u.password = true
        · by_cases hact : u.isActive = true
          · simp [loginUserV2, hs, hfind, hcmp, hact, exceptIsOk] at hfail
          · simp [loginUserV2, hs, hfind, hcmp, hact]
        · simp [loginUserV2, hs, hfind, hcmp]
    · simp [loginUserV2, hs]
  · intro u hfind hok
    by_cases hs : loginSchemaOk email password = true
    · by_cases hcmp : comparePasses true (sanitizePassword password) u.password = true
      · by_cases hact : u.isActive = true
        · simp [loginUserV2, hs, hfind, hcmp, hact]
        · simp [loginUserV2, hs, hfind, hcmp, hact, exceptIsOk] at hok
      · simp [loginUserV2, hs, hfind, hcmp, exceptIsOk] at hok
    · simp [loginUserV2, hs, exceptIsOk] at hok
  · intro uid t us v' hmem
    unfold touchLastLogin at hmem
    rcases List.mem_map.mp hmem with ⟨v, hv, hveq⟩
    by_cases hid : v.id = uid
    · right
      exact ⟨v, hv, hid, by rw [← hveq, if_pos hid]⟩
    · left
      rw [← hveq, if_neg hid]
      exact hv

/-- Concrete instantiation of `login_principal_frame`: the successful v2
login rewrites the user table exactly to the `touchLastLogin` image. -/
theorem login_principal_frame_witness :
    (loginUserV2
        ⟨[⟨1, "a@b.c", bcryptHash "Password1", "N", "S", true, "STUDENT", none⟩],
          [], [], [], 0, 0⟩ 5 "a@b.c" "Password1").db.users =
      touchLastLogin 1 5
        [⟨1, "a@b.c", bcryptHash "Password1", "N", "S", true, "STUDENT", none⟩] := by
  exact (login_principal_frame
      ⟨[⟨1, "a@b.c", bcryptHash "Password1", "N", "S", true, "STUDENT", none⟩], [], [], [], 0, 0⟩
      5 "a@b.c" "Password1").2.2.2.2.2.2.2.2.1
    ⟨1, "a@b.c", bcryptHash "Password1", "N", "S", true, "STUDENT", none⟩ (by decide) (by decide)

/-- Table invariant: primary keys are pairwise distinct (autoincrement). -/
def uniqueIds (l : List Session) : Prop :=
  l.Pairwise (fun a b => a.id ≠ b.id)

/-- Model of Prisma `findUnique({ where: { id } })` on a session table. -/
def rowById (l : List Session) (i : Nat) : Option Session :=
  l.find? (fun s => s.id = i)

lemma foldl_min_mem (xs : List Session) :
    ∀ x : Session,
      xs.foldl (fun b s => if s.createdAt < b.createdAt then s else b) x ∈ x :: xs := by
  induction xs with
  | nil => intro x; simp
  | cons a tl ih =>
    intro x
    simp only [List.foldl_cons]
    by_cases h : a.createdAt < x.createdAt
    · rw [if_pos h]
      rcases List.mem_cons.mp (ih a) with h1 | h1
      · exact List.mem_cons.mpr (Or.inr (List.mem_cons.mpr (Or.inl h1)))
      · exact List.mem_cons.mpr (Or.inr (List.mem_cons.mpr (Or.inr h1)))
    · rw [if_neg h]
      rcases List.mem_cons.mp (ih x) with h1 | h1
      · exact List.mem_cons.mpr (Or.inl h1)
      · exact List.mem_cons.mpr (Or.inr (List.mem_cons.mpr (Or.inr h1)))

lemma foldl_min_le (xs : List Session) :
    ∀ x : Session, ∀ s ∈ x :: xs,
      (xs.foldl (fun b s => if s.createdAt < b.createdAt then s else b) x).createdAt ≤
        s.createdAt := by
  induction xs with
  | nil =>
    intro x s hs
    rcases List.mem_cons.mp hs with h1 | h1
    · subst h1; simp
    · simp at h1
  | cons a tl ih =>
    intro x s hs
    simp only [List.foldl_cons]
    by_cases h : a.createdAt < x.createdAt
    · rw [if_pos h]
      rcases List.mem_cons.mp hs with h1 | h1
      · subst h1
        exact le_trans (ih a a (List.mem_cons_self a tl)) (Nat.le_of_lt h)
      · exact ih a s h1
    · rw [if_neg h]
      rcases List.mem_cons.mp hs with h1 | h1
      · subst h1
        exact ih s s (List.mem_cons_self s tl)
      · rcases List.mem_cons.mp h1 with h2 | h2
        · subst h2
          exact le_trans (ih x x (List.mem_cons_self x tl)) (Nat.le_of_not_lt h)
        · exact ih x s (List.mem_cons.mpr (Or.inr h2))

lemma oldestWhere_spec {p : Session → Bool} {l : List Session} {o : Session}
    (h : oldestWhere p l = some o) :
    o ∈ l ∧ p o = true ∧ ∀ s ∈ l, p s = true → o.createdAt ≤ s.createdAt := by
  unfold oldestWhere at h
  cases hf : l.filter p with
  | nil => rw [hf] at h; exact absurd h (by simp)
  | cons x xs =>
    rw [hf] at h
    have ho : o = xs.foldl (fun b s => if s.createdAt < b.createdAt then s else b) x := by
      cases h; rfl
    have hmem : o ∈ x :: xs := ho ▸ foldl_min_mem xs x
    have hmin : ∀ s ∈ x :: xs, o.createdAt ≤ s.createdAt := by
      intro s hs; exact ho ▸ foldl_min_le xs x s hs
    rw [← hf] at hmem
    refine ⟨(List.mem_filter.mp hmem).1, (List.mem_filter.mp hmem).2, ?_⟩
    intro s hs hp
    have : s ∈ l.filter p := List.mem_filter.mpr ⟨hs, hp⟩
    rw [hf] at this
    exact hmin s this

lemma oldestWhere_isSome {p : Session → Bool} {l : List Session}
    (h : ∃ s ∈ l, p s = true) : ∃ o, oldestWhere p l = some o := by
  obtain ⟨s, hs, hp⟩ := h
  have : s ∈ l.filter p := List.mem_filter.mpr ⟨hs, hp⟩
  unfold oldestWhere
  cases hf : l.filter p with
  | nil => rw [hf] at this; simp at this
  | cons x xs => exact ⟨_, rfl⟩

lemma rowById_updateRevoke_self {l : List Session} {o : Session}
    (ho : o ∈ l) (hu : uniqueIds l) :
    rowById (updateRevokeById o.id l) o.id = some (revokeRow o) := by
  induction l with
  | nil => simp at ho
  | cons a tl ih =>
    have hu' : uniqueIds tl := (List.pairwise_cons.mp hu).2
    unfold rowById updateRevokeById at ih ⊢
    rw [List.map_cons]
    rcases List.mem_cons.mp ho with h1 | h1
    · subst h1
      have hh : (if o.id = o.id then revokeRow o else o) = revokeRow o := if_pos rfl
      rw [hh]
      exact List.find?_cons_of_pos _ (by simp [revokeRow])
    · have hane : a.id ≠ o.id := (List.pairwise_cons.mp hu).1 o h1
      have hh : (if a.id = o.id then revokeRow a else a) = a := if_neg hane
      rw [hh, List.find?_cons_of_neg _ (by simp [hane])]
      exact ih h1 hu'

lemma rowById_updateRevoke_other {l : List Session} {s : Session} (i : Nat)
    (hs : s ∈ l) (hu : uniqueIds l) (hne : s.id ≠ i) :
    rowById (updateRevokeById i l) s.id = some s := by
  induction l with
  | nil => simp at hs
  | cons a tl ih =>
    have hu' : uniqueIds tl := (List.pairwise_cons.mp hu).2
    unfold rowById updateRevokeById at ih ⊢
    rw [List.map_cons]
    rcases List.mem_cons.mp hs with h1 | h1
    · subst h1
      have hh : (if s.id = i then revokeRow s else s) = s := if_neg hne
      rw [hh]
      exact List.find?_cons_of_pos _ (by simp)
    · have hane : a.id ≠ s.id := (List.pairwise_cons.mp hu).1 s h1
      by_cases hai : a.id = i
      · have hh : (if a.id = i then revokeRow a else a) = revokeRow a := if_pos hai
        rw [hh, List.find?_cons_of_neg _ (by simp [revokeRow, hane])]
        exact ih h1 hu'
      · have hh : (if a.id = i then revokeRow a else a) = a := if_neg hai
        rw [hh, List.find?_cons_of_neg _ (by simp [hane])]
        exact ih h1 hu'

lemma rowById_append_left {l l' : List Session} {i : Nat} {s : Session}
    (h : rowById l i = some s) : rowById (l ++ l') i = some s := by
  unfold rowById at h ⊢
  rw [List.find?_append, h]
  rfl

lemma countWhere_pos_exists {p : Session → Bool} {l : List Session}
    (h : 0 < countWhere p l) : ∃ s ∈ l, p s = true := by
  unfold countWhere at h
  rcases List.exists_mem_of_length_pos h with ⟨s, hs⟩
  exact ⟨s, (List.mem_filter.mp hs).1, (List.mem_filter.mp hs).2⟩

lemma activeRow_nonRevoked {pid now : Nat} {s : Session}
    (h : activeRow pid now s = true) : nonRevokedRow pid s = true := by
  simp only [activeRow, Bool.and_eq_true, decide_eq_true_eq] at h
  simp only [nonRevokedRow, Bool.and_eq_true, decide_eq_true_eq]
  exact ⟨h.1.1, h.1.2⟩

lemma evictCreate_rowById (pid : Nat) (l : List Session) (row : Session)
    (hu : uniqueIds l) (hfresh : ∀ s ∈ l, s.id ≠ row.id)
    (hne : ∃ s ∈ l, nonRevokedRow pid s = true) :
    ∃ o ∈ l, nonRevokedRow pid o = true ∧
      (∀ s ∈ l, nonRevokedRow pid s = true → o.createdAt ≤ s.createdAt) ∧
      rowById (evictOldest pid l ++ [row]) o.id = some (revokeRow o) ∧
      (∀ s ∈ l, s.id ≠ o.id → rowById (evictOldest pid l ++ [row]) s.id = some s) := by
  obtain ⟨o, ho⟩ := oldestWhere_isSome hne
  obtain ⟨hom, hop, homin⟩ := oldestWhere_spec ho
  refine ⟨o, hom, hop, homin, ?_, ?_⟩
  · unfold evictOldest
    rw [ho]
    exact rowById_append_left (rowById_updateRevoke_self hom hu)
  · intro s hs hne2
    unfold evictOldest
    rw [ho]
    exact rowById_append_left (rowById_updateRevoke_other o.id hs hu hne2)

/-- C5, counterexample. The claim states that cap eviction revokes exactly
the session with the earliest `createdAt` among the principal's *active*
(non-revoked, non-expired) sessions. Concretely: with an expired
non-revoked session A (createdAt 0, expired at 10) and three active
sessions B,C,D (createdAt 20,21,22), a fifth login at time 100 triggers
eviction (3 active sessions) but revokes A — the eviction query filters
only on `revoked: false` with no expiry condition — leaving B, the
earliest active session, untouched. -/
theorem fifo_eviction_counterexample :
    activeRow 1 100 ⟨0, ⟨1, none, none, none, 1, 0, 2592000⟩, 1, 0, 0, 10, false⟩ = false ∧
    exceptIsOk (loginUserV1
      ⟨[⟨1, "a@b.c", bcryptHash "Password1", "N", "S", true, "STUDENT", none⟩], [],
        [⟨0, ⟨1, none, none, none, 1, 0, 2592000⟩, 1, 0, 0, 10, false⟩,
         ⟨1, ⟨1, none, none, none, 1, 20, 2592020⟩, 1, 1, 20, 1000000000, false⟩,
         ⟨2, ⟨1, none, none, none, 1, 21, 2592021⟩, 1, 2, 21, 1000000000, false⟩,
         ⟨3, ⟨1, none, none, none, 1, 22, 2592022⟩, 1, 3, 22, 1000000000, false⟩],
        [], 4, 4⟩ 100 "a@b.c" "Password1").result = true ∧
    rowById (loginUserV1
      ⟨[⟨1, "a@b.c", bcryptHash "Password1", "N", "S", true, "STUDENT", none⟩], [],
        [⟨0, ⟨1, none, none, none, 1, 0, 2592000⟩, 1, 0, 0, 10, false⟩,
         ⟨1, ⟨1, none, none, none, 1, 20, 2592020⟩, 1, 1, 20, 1000000000, false⟩,
         ⟨2, ⟨1, none, none, none, 1, 21, 2592021⟩, 1, 2, 21, 1000000000, false⟩,
         ⟨3, ⟨1, none, none, none, 1, 22, 2592022⟩, 1, 3, 22, 1000000000, false⟩],
        [], 4, 4⟩ 100 "a@b.c" "Password1").db.userSessions 0 =
      some ⟨0, ⟨1, none, none, none, 1, 0, 2592000⟩, 1, 0, 0, 10, true⟩ ∧
    rowById (loginUserV1
      ⟨[⟨1, "a@b.c", bcryptHash "Password1", "N", "S", true, "STUDENT", none⟩], [],
        [⟨0, ⟨1, none, none, none, 1, 0, 2592000⟩, 1, 0, 0, 10, false⟩,
         ⟨1, ⟨1, none, none, none, 1, 20, 2592020⟩, 1, 1, 20, 1000000000, false⟩,
         ⟨2, ⟨1, none, none, none, 1, 21, 2592021⟩, 1, 2, 21, 1000000000, false⟩,
         ⟨3, ⟨1, none, none, none, 1, 22, 2592022⟩, 1, 3, 22, 1000000000, false⟩],
        [], 4, 4⟩ 100 "a@b.c" "Password1").db.userSessions 1 =
      some ⟨1, ⟨1, none, none, none, 1, 20, 2592020⟩, 1, 1, 20, 1000000000, false⟩ := by
  exact ⟨rfl, rfl, rfl, rfl⟩

/-- C5, amended. When a login triggers cap eviction, the session revoked is
the one with the earliest `createdAt` among the principal's *non-revoked*
sessions — expired or not (the eviction query has no expiry filter) — and
no other existing session is revoked or otherwise modified by that login.
Stated for the v1 user login and the v2 admin login over any table with
distinct row ids and fresh autoincrement counter. -/
theorem fifo_eviction_amended :
    (∀ (db : Db) (now : Nat) (email password : String) (u : Principal),
      db.users.find? (fun x => x.email = email) = some u →
      3 ≤ countWhere (activeRow u.id now) db.userSessions →
      uniqueIds db.userSessions →
      (∀ s ∈ db.userSessions, s.id < db.nextRowId) →
      ∃ o ∈ db.userSessions, nonRevokedRow u.id o = true ∧
        (∀ s ∈ db.userSessions, nonRevokedRow u.id s = true → o.createdAt ≤ s.createdAt) ∧
        rowById (loginUserV1 db now email password).db.userSessions o.id =
          some (revokeRow o) ∧
        (∀ s ∈ db.userSessions, s.id ≠ o.id →
          rowById (loginUserV1 db now email password).db.userSessions s.id = some s)) ∧
    (∀ (db : Db) (now : Nat) (email password : String) (a : Admin),
      loginSchemaOk email password = true →
      db.admins.find? (fun x => x.email = sanitizeEmail email) = some a →
      comparePasses true (sanitizePassword password) a.password = true →
      2 ≤ countWhere (nonRevokedRow a.id) db.adminSessions →
      uniqueIds db.adminSessions →
      (∀ s ∈ db.adminSessions, s.id < db.nextRowId) →
      ∃ o ∈ db.adminSessions, nonRevokedRow a.id o = true ∧
        (∀ s ∈ db.adminSessions, nonRevokedRow a.id s = true → o.createdAt ≤ s.createdAt) ∧
        rowById (loginAdminV2 db now email password).db.adminSessions o.id =
          some (revokeRow o) ∧
        (∀ s ∈ db.adminSessions, s.id ≠ o.id →
          rowById (loginAdminV2 db now email password).db.adminSessions s.id = some s)) := by
  constructor
  · intro db now email password u hfind htrig hu hfresh
    have hout : (loginUserV1 db now email password).db.userSessions =
        capEvictAndCreateV1 3 u.id now
          ⟨db.nextRowId, jwtSign u.id none none none USER_REFRESH_TOKEN_SECRET 2592000 now,
            u.id, db.nextUuid, now, now + 2592000, false⟩ db.userSessions := by
      simp [loginUserV1, hfind, comparePasses]
    have hcap : capEvictAndCreateV1 3 u.id now
        ⟨db.nextRowId, jwtSign u.id none none none USER_REFRESH_TOKEN_SECRET 2592000 now,
          u.id, db.nextUuid, now, now + 2592000, false⟩ db.userSessions =
        evictOldest u.id db.userSessions ++
          [⟨db.nextRowId, jwtSign u.id none none none USER_REFRESH_TOKEN_SECRET 2592000 now,
            u.id, db.nextUuid, now, now + 2592000, false⟩] := by
      simp only [capEvictAndCreateV1]
      rw [if_pos htrig]
    rw [hout, hcap]
    have hpos : 0 < countWhere (activeRow u.id now) db.userSessions :=
      lt_of_lt_of_le (by norm_num) htrig
    obtain ⟨s, hs, hp⟩ := countWhere_pos_exists hpos
    exact evictCreate_rowById u.id db.userSessions _ hu
      (fun s hs => Nat.ne_of_lt (hfresh s hs)) ⟨s, hs, activeRow_nonRevoked hp⟩
  · intro db now email password a hschema hfind hcmp htrig hu hfresh
    have hout : (loginAdminV2 db now email password).db.adminSessions =
        capEvictAndCreateV2 2 a.id
          ⟨db.nextRowId,
            jwtSign a.id none none (some db.nextUuid) ADMIN_REFRESH_TOKEN_SECRET 604800 now,
            a.id, db.nextUuid, now, now + 604800, false⟩ db.adminSessions := by
      simp [loginAdminV2, hschema, hfind, hcmp]
    have hcap : capEvictAndCreateV2 2 a.id
        ⟨db.nextRowId,
          jwtSign a.id none none (some db.nextUuid) ADMIN_REFRESH_TOKEN_SECRET 604800 now,
          a.id, db.nextUuid, now, now + 604800, false⟩ db.adminSessions =
        evictOldest a.id db.adminSessions ++
          [⟨db.nextRowId,
            jwtSign a.id none none (some db.nextUuid) ADMIN_REFRESH_TOKEN_SECRET 604800 now,
            a.id, db.nextUuid, now, now + 604800, false⟩] := by
      simp only [capEvictAndCreateV2]
      rw [if_pos htrig]
    rw [hout, hcap]
    have hpos : 0 < countWhere (nonRevokedRow a.id) db.adminSessions :=
      lt_of_lt_of_le (by norm_num) htrig
    obtain ⟨s, hs, hp⟩ := countWhere_pos_exists hpos
    exact evictCreate_rowById a.id db.adminSessions _ hu
      (fun s hs => Nat.ne_of_lt (hfresh s hs)) ⟨s, hs, hp⟩

/-- Concrete instantiation of `fifo_eviction_amended`: three active admin
sessions with distinct creation times; the login evicts the earliest one. -/
theorem fifo_eviction_amended_witness :
    ∃ o ∈ ([⟨0, ⟨1, none, none, none, 3, 5, 604805⟩, 1, 0, 5, 604805, false⟩,
        ⟨1, ⟨1, none, none, none, 3, 6, 604806⟩, 1, 1, 6, 604806, false⟩] : List Session),
      nonRevokedRow 1 o = true ∧
      (∀ s ∈ ([⟨0, ⟨1, none, none, none, 3, 5, 604805⟩, 1, 0, 5, 604805, false⟩,
          ⟨1, ⟨1, none, none, none, 3, 6, 604806⟩, 1, 1, 6, 604806, false⟩] : List Session),
        nonRevokedRow 1 s = true → o.createdAt ≤ s.createdAt) ∧
      rowById (loginAdminV2
        ⟨[], [⟨1, "a@b.c", bcryptHash "Password1"⟩],
          [], [⟨0, ⟨1, none, none, none, 3, 5, 604805⟩, 1, 0, 5, 604805, false⟩,
            ⟨1, ⟨1, none, none, none, 3, 6, 604806⟩, 1, 1, 6, 604806, false⟩], 2, 2⟩
        100 "a@b.c" "Password1").db.adminSessions o.id = some (revokeRow o) ∧
      (∀ s ∈ ([⟨0, ⟨1, none, none, none, 3, 5, 604805⟩, 1, 0, 5, 604805, false⟩,
          ⟨1, ⟨1, none, none, none, 3, 6, 604806⟩, 1, 1, 6, 604806, false⟩] : List Session),
        s.id ≠ o.id →
        rowById (loginAdminV2
          ⟨[], [⟨1, "a@b.c", bcryptHash "Password1"⟩],
            [], [⟨0, ⟨1, none, none, none, 3, 5, 604805⟩, 1, 0, 5, 604805, false⟩,
              ⟨1, ⟨1, none, none, none, 3, 6, 604806⟩, 1, 1, 6, 604806, false⟩], 2, 2⟩
          100 "a@b.c" "Password1").db.adminSessions s.id = some s) := by
  exact fifo_eviction_amended.2
    ⟨[], [⟨1, "a@b.c", bcryptHash "Password1"⟩],
      [], [⟨0, ⟨1, none, none, none, 3, 5, 604805⟩, 1, 0, 5, 604805, false⟩,
        ⟨1, ⟨1, none, none, none, 3, 6, 604806⟩, 1, 1, 6, 604806, false⟩], 2, 2⟩
    100 "a@b.c" "Password1" ⟨1, "a@b.c", bcryptHash "Password1"⟩
    (by decide) (by decide) (by decide) (by decide)
    (by unfold uniqueIds; decide) (by decide)

lemma activeRow_iff {pid now : Nat} {s : Session} :
    activeRow pid now s = true ↔
      (s.principalId = pid ∧ s.revoked = false ∧ now < s.expiresAt) := by
  simp [activeRow, Bool.and_eq_true, decide_eq_true_eq, and_assoc]

lemma activeRow_revokeRow (pid now : Nat) (s : Session) :
    activeRow pid now (revokeRow s) = false := by
  simp [activeRow, revokeRow]

lemma countWhere_append_singleton (p : Session → Bool) (l : List Session) (row : Session) :
    countWhere p (l ++ [row]) = countWhere p l + (if p row = true then 1 else 0) := by
  by_cases h : p row = true <;> simp [countWhere, List.filter_append, h]

lemma countWhere_updateRevoke {l : List Session} {o : Session}
    (ho : o ∈ l) (hu : uniqueIds l) (p : Session → Bool)
    (hrev : ∀ s, p (revokeRow s) = false) :
    countWhere p (updateRevokeById o.id l) + (if p o = true then 1 else 0) =
      countWhere p l := by
  induction l with
  | nil => simp at ho
  | cons a tl ih =>
    have hu' : uniqueIds tl := (List.pairwise_cons.mp hu).2
    rcases List.mem_cons.mp ho with h1 | h1
    · subst h1
      have htl : updateRevokeById o.id tl = tl := by
        unfold updateRevokeById
        conv_rhs => rw [← List.map_id tl]
        apply List.map_congr_left
        intro s hs
        have hne : o.id ≠ s.id := (List.pairwise_cons.mp hu).1 s hs
        rw [if_neg (fun hh => hne hh.symm)]
        rfl
      unfold updateRevokeById at htl ⊢
      rw [List.map_cons, if_pos rfl, htl]
      by_cases hpo : p o = true
      · simp [countWhere, List.filter, hrev o, hpo]
      · have hpo' : p o = false := by
          cases hb : p o
          · rfl
          · exact absurd hb hpo
        simp [countWhere, List.filter, hrev o, hpo']
    · have hane : a.id ≠ o.id := (List.pairwise_cons.mp hu).1 o h1
      have := ih h1 hu'
      unfold updateRevokeById at this ⊢
      rw [List.map_cons, if_neg hane]
      by_cases hpa : p a = true
      · simp only [countWhere, List.filter, hpa] at this ⊢
        simp only [List.length_cons]
        omega
      · have hpa' : p a = false := by
          cases hb : p a
          · rfl
          · exact absurd hb hpa
        simp only [countWhere, List.filter, hpa'] at this ⊢
        omega

lemma capEvictV1_cap (cap pid puid now : Nat) (l : List Session) (row : Session)
    (hrow_pid : row.principalId = puid) (hrow_rev : row.revoked = false)
    (hrow_exp : now < row.expiresAt)
    (hu : uniqueIds l)
    (hexp : ∀ s ∈ l, s.revoked = false → now < s.expiresAt)
    (hcnt : countWhere (activeRow pid now) l ≤ cap)
    (hcap_pos : 0 < cap) :
    countWhere (activeRow pid now) (capEvictAndCreateV1 cap puid now row l) ≤ cap := by
  by_cases htrig : cap ≤ countWhere (activeRow puid now) l
  · have hpos : 0 < countWhere (activeRow puid now) l := lt_of_lt_of_le hcap_pos htrig
    obtain ⟨s0, hs0, hp0⟩ := countWhere_pos_exists hpos
    obtain ⟨o, hoW⟩ := oldestWhere_isSome ⟨s0, hs0, activeRow_nonRevoked hp0⟩
    obtain ⟨hom, hop, _⟩ := oldestWhere_spec hoW
    have hoPid : o.principalId = puid ∧ o.revoked = false := by
      simpa [nonRevokedRow, Bool.and_eq_true, decide_eq_true_eq] using hop
    have hcount := countWhere_updateRevoke hom hu (activeRow pid now)
      (activeRow_revokeRow pid now)
    have hcap1 : capEvictAndCreateV1 cap puid now row l =
        updateRevokeById o.id l ++ [row] := by
      simp only [capEvictAndCreateV1, evictOldest]
      rw [if_pos htrig, hoW]
    rw [hcap1, countWhere_append_singleton]
    by_cases hpid : pid = puid
    · subst hpid
      have hoAct : activeRow pid now o = true := by
        rw [activeRow_iff]
        exact ⟨hoPid.1, hoPid.2, hexp o hom hoPid.2⟩
      have hrowAct : activeRow pid now row = true := by
        rw [activeRow_iff]
        exact ⟨hrow_pid, hrow_rev, hrow_exp⟩
      rw [hoAct] at hcount
      rw [hrowAct]
      simp only [if_pos rfl] at hcount ⊢
      omega
    · have hoAct : activeRow pid now o = false := by
        cases hb : activeRow pid now o
        · rfl
        · exfalso
          have h1 := (activeRow_iff.mp hb).1
          rw [hoPid.1] at h1
          exact hpid h1.symm
      have hrowAct : activeRow pid now row = false := by
        cases hb : activeRow pid now row
        · rfl
        · exfalso
          have h1 := (activeRow_iff.mp hb).1
          rw [hrow_pid] at h1
          exact hpid h1.symm
      rw [hoAct] at hcount
      rw [hrowAct]
      simp only [if_neg (by simp : ¬(false = true))] at hcount ⊢
      omega
  · have hcap1 : capEvictAndCreateV1 cap puid now row l = l ++ [row] := by
      simp only [capEvictAndCreateV1]
      rw [if_neg htrig]
    rw [hcap1, countWhere_append_singleton]
    by_cases hpid : pid = puid
    · subst hpid
      have : countWhere (activeRow pid now) l < cap := Nat.lt_of_not_le htrig
      by_cases hrowAct : activeRow pid now row = true <;> simp [hrowAct] <;> omega
    · have hrowAct : activeRow pid now row = false := by
        cases hb : activeRow pid now row
        · rfl
        · exfalso
          have h1 := (activeRow_iff.mp hb).1
          rw [hrow_pid] at h1
          exact hpid h1.symm
      simp [hrowAct]
      omega

/-- C2, counterexample. The claim states the session cap (3 for users) is
never exceeded by any sequence of logins. Concretely, five v1 logins of the
same user: one at time 0, then four more at times 3000000..3000003 (after
the first session has expired — 30 days = 2592000 s). At the fifth login
the user has 3 active sessions, so eviction fires, but it revokes the
*expired* first session (oldest non-revoked), and after the call the user
has 4 non-revoked, non-expired sessions — the cap invariant is violated. -/
theorem session_cap_counterexample :
    countWhere (activeRow 1 3000003)
      (applyOps
        ⟨[⟨1, "a@b.c", bcryptHash "Password1", "N", "S", true, "STUDENT", none⟩],
          [], [], [], 0, 0⟩
        [.opLoginUserV1 0 "a@b.c" "Password1",
         .opLoginUserV1 3000000 "a@b.c" "Password1",
         .opLoginUserV1 3000001 "a@b.c" "Password1",
         .opLoginUserV1 3000002 "a@b.c" "Password1",
         .opLoginUserV1 3000003 "a@b.c" "Password1"]).userSessions = 4 := by
  decide

/-- C2, amended. A single v1 login preserves the cap invariant (3 active
sessions for users, 2 for admins, for every principal) *provided* every
non-revoked session in the table is unexpired at the time of the call —
i.e. provided the set eviction chooses from (non-revoked, no expiry
filter) coincides with the set the trigger counts (non-revoked and
unexpired). Without that proviso the invariant fails, as the
counterexample shows: eviction can consume an expired session. -/
theorem session_cap_amended :
    (∀ (db : Db) (now : Nat) (email password : String) (pid : Nat),
      uniqueIds db.userSessions →
      (∀ s ∈ db.userSessions, s.revoked = false → now < s.expiresAt) →
      countWhere (activeRow pid now) db.userSessions ≤ 3 →
      countWhere (activeRow pid now)
        (loginUserV1 db now email password).db.userSessions ≤ 3) ∧
    (∀ (db : Db) (now : Nat) (email password : String) (pid : Nat),
      uniqueIds db.adminSessions →
      (∀ s ∈ db.adminSessions, s.revoked = false → now < s.expiresAt) →
      countWhere (activeRow pid now) db.adminSessions ≤ 2 →
      countWhere (activeRow pid now)
        (loginAdminV1 db now email password).db.adminSessions ≤ 2) := by
  constructor
  · intro db now email password pid hu hexp hcnt
    cases hfind : db.users.find? (fun x => x.email = email) with
    | none => simpa [loginUserV1, hfind] using hcnt
    | some u =>
      have hout : (loginUserV1 db now email password).db.userSessions =
          capEvictAndCreateV1 3 u.id now
            ⟨db.nextRowId, jwtSign u.id none none none USER_REFRESH_TOKEN_SECRET 2592000 now,
              u.id, db.nextUuid, now, now + 2592000, false⟩ db.userSessions := by
        simp [loginUserV1, hfind, comparePasses]
      rw [hout]
      exact capEvictV1_cap 3 pid u.id now db.userSessions _ rfl rfl
        (by show now < now + 2592000; omega) hu hexp hcnt (by norm_num)
  · intro db now email password pid hu hexp hcnt
    cases hfind : db.admins.find? (fun x => x.email = email) with
    | none => simpa [loginAdminV1, hfind] using hcnt
    | some a =>
      have hout : (loginAdminV1 db now email password).db.adminSessions =
          capEvictAndCreateV1 2 a.id now
            ⟨db.nextRowId, jwtSign a.id none none none ADMIN_REFRESH_TOKEN_SECRET 604800 now,
              a.id, db.nextUuid, now, now + 604800, false⟩ db.adminSessions := by
        simp [loginAdminV1, hfind, comparePasses]
      rw [hout]
      exact capEvictV1_cap 2 pid a.id now db.adminSessions _ rfl rfl
        (by show now < now + 604800; omega) hu hexp hcnt (by norm_num)

/-- Concrete instantiation of `session_cap_amended`: a user with 3 live,
unexpired sessions logs in a fourth time; the active count stays 3. -/
theorem session_cap_amended_witness :
    countWhere (activeRow 1 50)
      (loginUserV1
        ⟨[⟨1, "a@b.c", bcryptHash "Password1", "N", "S", true, "STUDENT", none⟩], [],
          [⟨0, ⟨1, none, none, none, 1, 10, 2592010⟩, 1, 0, 10, 2592010, false⟩,
           ⟨1, ⟨1, none, none, none, 1, 11, 2592011⟩, 1, 1, 11, 2592011, false⟩,
           ⟨2, ⟨1, none, none, none, 1, 12, 2592012⟩, 1, 2, 12, 2592012, false⟩],
          [], 3, 3⟩ 50 "a@b.c" "Password1").db.userSessions ≤ 3 := by
  exact session_cap_amended.1
    ⟨[⟨1, "a@b.c", bcryptHash "Password1", "N", "S", true, "STUDENT", none⟩], [],
      [⟨0, ⟨1, none, none, none, 1, 10, 2592010⟩, 1, 0, 10, 2592010, false⟩,
       ⟨1, ⟨1, none, none, none, 1, 11, 2592011⟩, 1, 1, 11, 2592011, false⟩,
       ⟨2, ⟨1, none, none, none, 1, 12, 2592012⟩, 1, 2, 12, 2592012, false⟩],
      [], 3, 3⟩ 50 "a@b.c" "Password1" 1
    (by unfold uniqueIds; decide) (by decide) (by decide)

lemma mem_updateRevokeById {l : List Session} {i : Nat} {s : Session}
    (h : s ∈ updateRevokeById i l) :
    ∃ s₀ ∈ l, s = s₀ ∨ s = revokeRow s₀ := by
  unfold updateRevokeById at h
  rcases List.mem_map.mp h with ⟨s₀, hs₀, heq⟩
  by_cases hid : s₀.id = i
  · rw [if_pos hid] at heq
    exact ⟨s₀, hs₀, Or.inr heq.symm⟩
  · rw [if_neg hid] at heq
    exact ⟨s₀, hs₀, Or.inl heq.symm⟩

lemma mem_evictOldest {pid : Nat} {l : List Session} {s : Session}
    (h : s ∈ evictOldest pid l) :
    ∃ s₀ ∈ l, s = s₀ ∨ s = revokeRow s₀ := by
  unfold evictOldest at h
  cases ho : oldestWhere (nonRevokedRow pid) l with
  | some o => rw [ho] at h; exact mem_updateRevokeById h
  | none => rw [ho] at h; exact ⟨s, h, Or.inl rfl⟩

lemma mem_capEvictV1 {cap pid now : Nat} {row : Session} {l : List Session} {s : Session}
    (h : s ∈ capEvictAndCreateV1 cap pid now row l) :
    (∃ s₀ ∈ l, s = s₀ ∨ s = revokeRow s₀) ∨ s = row := by
  simp only [capEvictAndCreateV1] at h
  rcases List.mem_append.mp h with h1 | h1
  · by_cases htrig : cap ≤ countWhere (activeRow pid now) l
    · rw [if_pos htrig] at h1
      exact Or.inl (mem_evictOldest h1)
    · rw [if_neg htrig] at h1
      exact Or.inl ⟨s, h1, Or.inl rfl⟩
  · exact Or.inr (List.mem_singleton.mp h1)

lemma mem_capEvictV2 {cap pid : Nat} {row : Session} {l : List Session} {s : Session}
    (h : s ∈ capEvictAndCreateV2 cap pid row l) :
    (∃ s₀ ∈ l, s = s₀ ∨ s = revokeRow s₀) ∨ s = row := by
  simp only [capEvictAndCreateV2] at h
  rcases List.mem_append.mp h with h1 | h1
  · by_cases htrig : cap ≤ countWhere (nonRevokedRow pid) l
    · rw [if_pos htrig] at h1
      exact Or.inl (mem_evictOldest h1)
    · rw [if_neg htrig] at h1
      exact Or.inl ⟨s, h1, Or.inl rfl⟩
  · exact Or.inr (List.mem_singleton.mp h1)

lemma mem_updateManyMap {p : Session → Bool} {l : List Session} {s : Session}
    (h : s ∈ (updateManyRevoke p l).fst) :
    ∃ s₀ ∈ l, s = s₀ ∨ s = revokeRow s₀ := by
  unfold updateManyRevoke at h
  rcases List.mem_map.mp h with ⟨s₀, hs₀, heq⟩
  by_cases hp : p s₀ = true
  · rw [if_pos hp] at heq
    exact ⟨s₀, hs₀, Or.inr heq.symm⟩
  · have hp' : p s₀ = false := by
      cases hb : p s₀
      · rfl
      · exact absurd hb hp
    rw [hp'] at heq
    simp only [Bool.false_eq_true, if_false] at heq
    exact ⟨s₀, hs₀, Or.inl heq.symm⟩

lemma revokeRefreshToken_sessions (cfg : AuthConfig) (db : Db) (i : Nat) :
    sessionsFor cfg (revokeRefreshToken cfg db i) =
      updateRevokeById i (sessionsFor cfg db) := by
  unfold revokeRefreshToken
  rw [sessionsFor_set]

lemma loginUserV1_userSessions_shape (db : Db) (now : Nat) (email password : String) :
    (loginUserV1 db now email password).db.userSessions = db.userSessions ∨
    ∃ cap pid row, (loginUserV1 db now email password).db.userSessions =
      capEvictAndCreateV1 cap pid now row db.userSessions ∧ row.token.iat = now := by
  cases hfind : db.users.find? (fun u => u.email = email) with
  | none => left; simp [loginUserV1, hfind]
  | some u =>
    right
    refine ⟨3, u.id,
      ⟨db.nextRowId, jwtSign u.id none none none USER_REFRESH_TOKEN_SECRET 2592000 now,
        u.id, db.nextUuid, now, now + 2592000, false⟩, ?_, rfl⟩
    simp [loginUserV1, hfind, comparePasses]

lemma loginUserV1_adminSessions_eq (db : Db) (now : Nat) (email password : String) :
    (loginUserV1 db now email password).db.adminSessions = db.adminSessions := by
  cases hfind : db.users.find? (fun u => u.email = email) with
  | none => simp [loginUserV1, hfind]
  | some u => simp [loginUserV1, hfind, comparePasses]

lemma loginUserV2_userSessions_shape (db : Db) (now : Nat) (email password : String) :
    (loginUserV2 db now email password).db.userSessions = db.userSessions ∨
    ∃ cap pid row, (loginUserV2 db now email password).db.userSessions =
      capEvictAndCreateV2 cap pid row db.userSessions ∧ row.token.iat = now := by
  by_cases hs : loginSchemaOk email password = true
  · cases hfind : db.users.find? (fun u => u.email = sanitizeEmail email) with
    | none => left; simp [loginUserV2, hs, hfind]
    | some u =>
      by_cases hcmp : comparePasses true (sanitizePassword password) u.password = true
      · by_cases hact : u.isActive = true
        · right
          refine ⟨3, u.id,
            ⟨db.nextRowId,
              jwtSign u.id none none (some db.nextUuid) USER_REFRESH_TOKEN_SECRET 2592000 now,
              u.id, db.nextUuid, now, now + 2592000, false⟩, ?_, rfl⟩
          simp [loginUserV2, hs, hfind, hcmp, hact]
        · left; simp [loginUserV2, hs, hfind, hcmp, hact]
      · left; simp [loginUserV2, hs, hfind, hcmp]
  · left; simp [loginUserV2, hs]

lemma loginUserV2_adminSessions_eq (db : Db) (now : Nat) (email password : String) :
    (loginUserV2 db now email password).db.adminSessions = db.adminSessions := by
  by_cases hs : loginSchemaOk email password = true
  · cases hfind : db.users.find? (fun u => u.email = sanitizeEmail email) with
    | none => simp [loginUserV2, hs, hfind]
    | some u =>
      by_cases hcmp : comparePasses true (sanitizePassword password) u.password = true
      · by_cases hact : u.isActive = true <;> simp [loginUserV2, hs, hfind, hcmp, hact]
      · simp [loginUserV2, hs, hfind, hcmp]
  · simp [loginUserV2, hs]

lemma loginAdminV1_adminSessions_shape (db : Db) (now : Nat) (email password : String) :
    (loginAdminV1 db now email password).db.adminSessions = db.adminSessions ∨
    ∃ cap pid row, (loginAdminV1 db now email password).db.adminSessions =
      capEvictAndCreateV1 cap pid now row db.adminSessions ∧ row.token.iat = now := by
  cases hfind : db.admins.find? (fun a => a.email = email) with
  | none => left; simp [loginAdminV1, hfind]
  | some a =>
    right
    refine ⟨2, a.id,
      ⟨db.nextRowId, jwtSign a.id none none none ADMIN_REFRESH_TOKEN_SECRET 604800 now,
        a.id, db.nextUuid, now, now + 604800, false⟩, ?_, rfl⟩
    simp [loginAdminV1, hfind, comparePasses]

lemma loginAdminV1_userSessions_eq (db : Db) (now : Nat) (email password : String) :
    (loginAdminV1 db now email password).db.userSessions = db.userSessions := by
  cases hfind : db.admins.find? (fun a => a.email = email) with
  | none => simp [loginAdminV1, hfind]
  | some a => simp [loginAdminV1, hfind, comparePasses]

lemma loginAdminV2_adminSessions_shape (db : Db) (now : Nat) (email password : String) :
    (loginAdminV2 db now email password).db.adminSessions = db.adminSessions ∨
    ∃ cap pid row, (loginAdminV2 db now email password).db.adminSessions =
      capEvictAndCreateV2 cap pid row db.adminSessions ∧ row.token.iat = now := by
  by_cases hs : loginSchemaOk email password = true
  · cases hfind : db.admins.find? (fun a => a.email = sanitizeEmail email) with
    | none => left; simp [loginAdminV2, hs, hfind]
    | some a =>
      by_cases hcmp : comparePasses true (sanitizePassword password) a.password = true
      · right
        refine ⟨2, a.id,
          ⟨db.nextRowId,
            jwtSign a.id none none (some db.nextUuid) ADMIN_REFRESH_TOKEN_SECRET 604800 now,
            a.id, db.nextUuid, now, now + 604800, false⟩, ?_, rfl⟩
        simp [loginAdminV2, hs, hfind, hcmp]
      · left; simp [loginAdminV2, hs, hfind, hcmp]
  · left; simp [loginAdminV2, hs]

lemma loginAdminV2_userSessions_eq (db : Db) (now : Nat) (email password : String) :
    (loginAdminV2 db now email password).db.userSessions = db.userSessions := by
  by_cases hs : loginSchemaOk email password = true
  · cases hfind : db.admins.find? (fun a => a.email = sanitizeEmail email) with
    | none => simp [loginAdminV2, hs, hfind]
    | some a =>
      by_cases hcmp : comparePasses true (sanitizePassword password) a.password = true <;>
        simp [loginAdminV2, hs, hfind, hcmp]
  · simp [loginAdminV2, hs]

lemma refresh_sessions_shape (cfg : AuthConfig) (db : Db) (now : Nat) (cookie : Option Token) :
    sessionsFor cfg (handleTokenRefresh cfg db now cookie).db = sessionsFor cfg db ∨
    ∃ i row, sessionsFor cfg (handleTokenRefresh cfg db now cookie).db =
      updateRevokeById i (sessionsFor cfg db) ++ [row] ∧ row.token.iat = now := by
  cases cookie with
  | none => left; rfl
  | some t =>
    cases hv : jwtVerify t cfg.refreshSecret now with
    | error e => left; simp [handleTokenRefresh, hv]
    | ok pid =>
      cases hfind : findRefreshToken cfg db t with
      | none => left; simp [handleTokenRefresh, hv, hfind]
      | some st =>
        by_cases hbad : st.expiresAt < now ∨ st.revoked = true
        · left; simp [handleTokenRefresh, hv, hfind, hbad]
        · right
          refine ⟨st.id,
            ⟨(revokeRefreshToken cfg db st.id).nextRowId,
              jwtSign pid none none none cfg.refreshSecret (cfg.refreshDuration * 86400) now,
              pid, (revokeRefreshToken cfg db st.id).nextUuid, now,
              now + cfg.refreshDuration * 86400, false⟩, ?_, rfl⟩
          have hshape : sessionsFor cfg (handleTokenRefresh cfg db now (some t)).db =
              sessionsFor cfg (storeRefreshToken cfg (revokeRefreshToken cfg db st.id)
                (jwtSign pid none none none cfg.refreshSecret (cfg.refreshDuration * 86400) now)
                pid (revokeRefreshToken cfg db st.id).nextUuid
                (now + cfg.refreshDuration * 86400) now) := by
            have h1 : ¬ st.expiresAt < now := fun hh => hbad (Or.inl hh)
            have h2 : st.revoked = false := by
              cases hb : st.revoked
              · rfl
              · exact absurd (Or.inr hb) hbad
            have hbadB : (decide (st.expiresAt < now) || st.revoked) = false := by
              simp [h1, h2]
            simp only [handleTokenRefresh, hv, hfind, hbadB, Bool.false_eq_true, if_false]
            exact sessionsFor_congr rfl rfl
          rw [hshape, storeRefreshToken_sessions, revokeRefreshToken_sessions]

lemma refreshUser_adminSessions_eq (db : Db) (now : Nat) (cookie : Option Token) :
    (handleTokenRefresh userAuthConfig db now cookie).db.adminSessions = db.adminSessions := by
  cases cookie with
  | none => rfl
  | some t =>
    cases hv : jwtVerify t userAuthConfig.refreshSecret now with
    | error e => simp [handleTokenRefresh, hv]
    | ok pid =>
      cases hfind : findRefreshToken userAuthConfig db t with
      | none => simp [handleTokenRefresh, hv, hfind]
      | some st =>
        by_cases hbad : st.expiresAt < now ∨ st.revoked = true
        · simp [handleTokenRefresh, hv, hfind, hbad]
        · have h1 : ¬ st.expiresAt < now := fun hh => hbad (Or.inl hh)
          have h2 : st.revoked = false := by
            cases hb : st.revoked
            · rfl
            · exact absurd (Or.inr hb) hbad
          have hbadB : (decide (st.expiresAt < now) || st.revoked) = false := by
            simp [h1, h2]
          simp only [handleTokenRefresh, hv, hfind, hbadB, Bool.false_eq_true, if_false]
          simp [storeRefreshToken, revokeRefreshToken, setSessionsFor, sessionsFor,
            userAuthConfig]

lemma refreshAdmin_userSessions_eq (db : Db) (now : Nat) (cookie : Option Token) :
    (handleTokenRefresh adminAuthConfig db now cookie).db.userSessions = db.userSessions := by
  cases cookie with
  | none => rfl
  | some t =>
    cases hv : jwtVerify t adminAuthConfig.refreshSecret now with
    | error e => simp [handleTokenRefresh, hv]
    | ok pid =>
      cases hfind : findRefreshToken adminAuthConfig db t with
      | none => simp [handleTokenRefresh, hv, hfind]
      | some st =>
        by_cases hbad : st.expiresAt < now ∨ st.revoked = true
        · simp [handleTokenRefresh, hv, hfind, hbad]
        · have h1 : ¬ st.expiresAt < now := fun hh => hbad (Or.inl hh)
          have h2 : st.revoked = false := by
            cases hb : st.revoked
            · rfl
            · exact absurd (Or.inr hb) hbad
          have hbadB : (decide (st.expiresAt < now) || st.revoked) = false := by
            simp [h1, h2]
          simp only [handleTokenRefresh, hv, hfind, hbadB, Bool.false_eq_true, if_false]
          simp [storeRefreshToken, revokeRefreshToken, setSessionsFor, sessionsFor,
            adminAuthConfig]

lemma logoutUser_userSessions_shape (db : Db) (uid sid : Option Nat) :
    (logoutUserV2 db uid sid).db.userSessions = db.userSessions ∨
    ∃ q, (logoutUserV2 db uid sid).db.userSessions = (updateManyRevoke q db.userSessions).fst := by
  cases uid with
  | none => left; rfl
  | some u =>
    cases sid with
    | none => left; rfl
    | some sd =>
      right
      refine ⟨logoutMatch u sd, ?_⟩
      by_cases hc : (updateManyRevoke (logoutMatch u sd) db.userSessions).snd = 0 <;>
        simp [logoutUserV2, hc]

lemma logoutUser_adminSessions_eq (db : Db) (uid sid : Option Nat) :
    (logoutUserV2 db uid sid).db.adminSessions = db.adminSessions := by
  cases uid with
  | none => rfl
  | some u =>
    cases sid with
    | none => rfl
    | some sd =>
      by_cases hc : (updateManyRevoke (logoutMatch u sd) db.userSessions).snd = 0 <;>
        simp [logoutUserV2, hc]

lemma logoutAdmin_adminSessions_shape (db : Db) (sid aid : Option Nat) :
    (logoutAdminV2 db sid aid).db.adminSessions = db.adminSessions ∨
    ∃ q, (logoutAdminV2 db sid aid).db.adminSessions = (updateManyRevoke q db.adminSessions).fst := by
  cases sid with
  | none => left; rfl
  | some sd =>
    cases aid with
    | none => left; rfl
    | some a =>
      right
      refine ⟨logoutMatch a sd, ?_⟩
      by_cases hc : (updateManyRevoke (logoutMatch a sd) db.adminSessions).snd = 0 <;>
        simp [logoutAdminV2, hc]

lemma logoutAdmin_userSessions_eq (db : Db) (sid aid : Option Nat) :
    (logoutAdminV2 db sid aid).db.userSessions = db.userSessions := by
  cases sid with
  | none => rfl
  | some sd =>
    cases aid with
    | none => rfl
    | some a =>
      by_cases hc : (updateManyRevoke (logoutMatch a sd) db.adminSessions).snd = 0 <;>
        simp [logoutAdminV2, hc]

lemma userSessions_provenance (db : Db) (op : AuthOp) :
    ∀ s ∈ (applyOp db op).userSessions,
      (∃ s₀ ∈ db.userSessions, s = s₀ ∨ s = revokeRow s₀) ∨
      (∃ τ, AuthOp.mintTime op = some τ ∧ s.token.iat = τ) := by
  intro s hs
  cases op with
  | opLoginUserV1 now email password =>
    rcases loginUserV1_userSessions_shape db now email password with heq | ⟨cap, pid, row, heq, hiat⟩
    · rw [show applyOp db (.opLoginUserV1 now email password) = (loginUserV1 db now email password).db from rfl] at hs
      rw [heq] at hs
      exact Or.inl ⟨s, hs, Or.inl rfl⟩
    · rw [show applyOp db (.opLoginUserV1 now email password) = (loginUserV1 db now email password).db from rfl] at hs
      rw [heq] at hs
      rcases mem_capEvictV1 hs with h1 | h1
      · exact Or.inl h1
      · exact Or.inr ⟨now, rfl, h1 ▸ hiat⟩
  | opLoginUserV2 now email password =>
    rcases loginUserV2_userSessions_shape db now email password with heq | ⟨cap, pid, row, heq, hiat⟩
    · rw [show applyOp db (.opLoginUserV2 now email password) = (loginUserV2 db now email password).db from rfl] at hs
      rw [heq] at hs
      exact Or.inl ⟨s, hs, Or.inl rfl⟩
    · rw [show applyOp db (.opLoginUserV2 now email password) = (loginUserV2 db now email password).db from rfl] at hs
      rw [heq] at hs
      rcases mem_capEvictV2 hs with h1 | h1
      · exact Or.inl h1
      · exact Or.inr ⟨now, rfl, h1 ▸ hiat⟩
  | opLoginAdminV1 now email password =>
    rw [show applyOp db (.opLoginAdminV1 now email password) = (loginAdminV1 db now email password).db from rfl] at hs
    rw [loginAdminV1_userSessions_eq] at hs
    exact Or.inl ⟨s, hs, Or.inl rfl⟩
  | opLoginAdminV2 now email password =>
    rw [show applyOp db (.opLoginAdminV2 now email password) = (loginAdminV2 db now email password).db from rfl] at hs
    rw [loginAdminV2_userSessions_eq] at hs
    exact Or.inl ⟨s, hs, Or.inl rfl⟩
  | opRefreshUser now cookie =>
    rcases refresh_sessions_shape userAuthConfig db now cookie with heq | ⟨i, row, heq, hiat⟩
    · rw [show applyOp db (.opRefreshUser now cookie) = (handleTokenRefresh userAuthConfig db now cookie).db from rfl] at hs
      have : (handleTokenRefresh userAuthConfig db now cookie).db.userSessions = db.userSessions := heq
      rw [this] at hs
      exact Or.inl ⟨s, hs, Or.inl rfl⟩
    · rw [show applyOp db (.opRefreshUser now cookie) = (handleTokenRefresh userAuthConfig db now cookie).db from rfl] at hs
      have : (handleTokenRefresh userAuthConfig db now cookie).db.userSessions =
          updateRevokeById i db.userSessions ++ [row] := heq
      rw [this] at hs
      rcases List.mem_append.mp hs with h1 | h1
      · exact Or.inl (mem_updateRevokeById h1)
      · exact Or.inr ⟨now, rfl, (List.mem_singleton.mp h1) ▸ hiat⟩
  | opRefreshAdmin now cookie =>
    rw [show applyOp db (.opRefreshAdmin now cookie) = (handleTokenRefresh adminAuthConfig db now cookie).db from rfl] at hs
    rw [refreshAdmin_userSessions_eq] at hs
    exact Or.inl ⟨s, hs, Or.inl rfl⟩
  | opLogoutUser uid sid =>
    rcases logoutUser_userSessions_shape db uid sid with heq | ⟨q, heq⟩
    · rw [show applyOp db (.opLogoutUser uid sid) = (logoutUserV2 db uid sid).db from rfl] at hs
      rw [heq] at hs
      exact Or.inl ⟨s, hs, Or.inl rfl⟩
    · rw [show applyOp db (.opLogoutUser uid sid) = (logoutUserV2 db uid sid).db from rfl] at hs
      rw [heq] at hs
      exact Or.inl (mem_updateManyMap hs)
  | opLogoutAdmin sid aid =>
    rw [show applyOp db (.opLogoutAdmin sid aid) = (logoutAdminV2 db sid aid).db from rfl] at hs
    rw [logoutAdmin_userSessions_eq] at hs
    exact Or.inl ⟨s, hs, Or.inl rfl⟩

lemma adminSessions_provenance (db : Db) (op : AuthOp) :
    ∀ s ∈ (applyOp db op).adminSessions,
      (∃ s₀ ∈ db.adminSessions, s = s₀ ∨ s = revokeRow s₀) ∨
      (∃ τ, AuthOp.mintTime op = some τ ∧ s.token.iat = τ) := by
  intro s hs
  cases op with
  | opLoginUserV1 now email password =>
    rw [show applyOp db (.opLoginUserV1 now email password) = (loginUserV1 db now email password).db from rfl] at hs
    rw [loginUserV1_adminSessions_eq] at hs
    exact Or.inl ⟨s, hs, Or.inl rfl⟩
  | opLoginUserV2 now email password =>
    rw [show applyOp db (.opLoginUserV2 now email password) = (loginUserV2 db now email password).db from rfl] at hs
    rw [loginUserV2_adminSessions_eq] at hs
    exact Or.inl ⟨s, hs, Or.inl rfl⟩
  | opLoginAdminV1 now email password =>
    rcases loginAdminV1_adminSessions_shape db now email password with heq | ⟨cap, pid, row, heq, hiat⟩
    · rw [show applyOp db (.opLoginAdminV1 now email password) = (loginAdminV1 db now email password).db from rfl] at hs
      rw [heq] at hs
      exact Or.inl ⟨s, hs, Or.inl rfl⟩
    · rw [show applyOp db (.opLoginAdminV1 now email password) = (loginAdminV1 db now email password).db from rfl] at hs
      rw [heq] at hs
      rcases mem_capEvictV1 hs with h1 | h1
      · exact Or.inl h1
      · exact Or.inr ⟨now, rfl, h1 ▸ hiat⟩
  | opLoginAdminV2 now email password =>
    rcases loginAdminV2_adminSessions_shape db now email password with heq | ⟨cap, pid, row, heq, hiat⟩
    · rw [show applyOp db (.opLoginAdminV2 now email password) = (loginAdminV2 db now email password).db from rfl] at hs
      rw [heq] at hs
      exact Or.inl ⟨s, hs, Or.inl rfl⟩
    · rw [show applyOp db (.opLoginAdminV2 now email password) = (loginAdminV2 db now email password).db from rfl] at hs
      rw [heq] at hs
      rcases mem_capEvictV2 hs with h1 | h1
      · exact Or.inl h1
      · exact Or.inr ⟨now, rfl, h1 ▸ hiat⟩
  | opRefreshUser now cookie =>
    rw [show applyOp db (.opRefreshUser now cookie) = (handleTokenRefresh userAuthConfig db now cookie).db from rfl] at hs
    rw [refreshUser_adminSessions_eq] at hs
    exact Or.inl ⟨s, hs, Or.inl rfl⟩
  | opRefreshAdmin now cookie =>
    rcases refresh_sessions_shape adminAuthConfig db now cookie with heq | ⟨i, row, heq, hiat⟩
    · rw [show applyOp db (.opRefreshAdmin now cookie) = (handleTokenRefresh adminAuthConfig db now cookie).db from rfl] at hs
      have : (handleTokenRefresh adminAuthConfig db now cookie).db.adminSessions = db.adminSessions := heq
      rw [this] at hs
      exact Or.inl ⟨s, hs, Or.inl rfl⟩
    · rw [show applyOp db (.opRefreshAdmin now cookie) = (handleTokenRefresh adminAuthConfig db now cookie).db from rfl] at hs
      have : (handleTokenRefresh adminAuthConfig db now cookie).db.adminSessions =
          updateRevokeById i db.adminSessions ++ [row] := heq
      rw [this] at hs
      rcases List.mem_append.mp hs with h1 | h1
      · exact Or.inl (mem_updateRevokeById h1)
      · exact Or.inr ⟨now, rfl, (List.mem_singleton.mp h1) ▸ hiat⟩
  | opLogoutUser uid sid =>
    rw [show applyOp db (.opLogoutUser uid sid) = (logoutUserV2 db uid sid).db from rfl] at hs
    rw [logoutUser_adminSessions_eq] at hs
    exact Or.inl ⟨s, hs, Or.inl rfl⟩
  | opLogoutAdmin sid aid =>
    rcases logoutAdmin_adminSessions_shape db sid aid with heq | ⟨q, heq⟩
    · rw [show applyOp db (.opLogoutAdmin sid aid) = (logoutAdminV2 db sid aid).db from rfl] at hs
      rw [heq] at hs
      exact Or.inl ⟨s, hs, Or.inl rfl⟩
    · rw [show applyOp db (.opLogoutAdmin sid aid) = (logoutAdminV2 db sid aid).db from rfl] at hs
      rw [heq] at hs
      exact Or.inl (mem_updateManyMap hs)

lemma noLive_user_applyOp {t : Token} {db : Db} {op : AuthOp}
    (h : noLiveToken t db.userSessions)
    (hop : ∀ τ, AuthOp.mintTime op = some τ → τ ≠ t.iat) :
    noLiveToken t (applyOp db op).userSessions := by
  intro s hs hst
  rcases userSessions_provenance db op s hs with ⟨s₀, hs₀, heq | heq⟩ | ⟨τ, hτ, hiat⟩
  · subst heq
    exact h _ hs₀ hst
  · subst heq
    rfl
  · exfalso
    exact hop τ hτ (by rw [← hiat, hst])

lemma noLive_admin_applyOp {t : Token} {db : Db} {op : AuthOp}
    (h : noLiveToken t db.adminSessions)
    (hop : ∀ τ, AuthOp.mintTime op = some τ → τ ≠ t.iat) :
    noLiveToken t (applyOp db op).adminSessions := by
  intro s hs hst
  rcases adminSessions_provenance db op s hs with ⟨s₀, hs₀, heq | heq⟩ | ⟨τ, hτ, hiat⟩
  · subst heq
    exact h _ hs₀ hst
  · subst heq
    rfl
  · exfalso
    exact hop τ hτ (by rw [← hiat, hst])

lemma noLive_user_applyOps {t : Token} (ops : List AuthOp) (db : Db)
    (h : noLiveToken t db.userSessions)
    (hops : ∀ op ∈ ops, ∀ τ, AuthOp.mintTime op = some τ → τ ≠ t.iat) :
    noLiveToken t (applyOps db ops).userSessions := by
  induction ops generalizing db with
  | nil => exact h
  | cons op rest ih =>
    exact ih (applyOp db op)
      (noLive_user_applyOp h (hops op (List.mem_cons_self op rest)))
      (fun o ho => hops o (List.mem_cons.mpr (Or.inr ho)))

lemma noLive_admin_applyOps {t : Token} (ops : List AuthOp) (db : Db)
    (h : noLiveToken t db.adminSessions)
    (hops : ∀ op ∈ ops, ∀ τ, AuthOp.mintTime op = some τ → τ ≠ t.iat) :
    noLiveToken t (applyOps db ops).adminSessions := by
  induction ops generalizing db with
  | nil => exact h
  | cons op rest ih =>
    exact ih (applyOp db op)
      (noLive_admin_applyOp h (hops op (List.mem_cons_self op rest)))
      (fun o ho => hops o (List.mem_cons.mpr (Or.inr ho)))

lemma refresh_fails_noLive {cfg : AuthConfig} {db : Db} {now : Nat} {t : Token}
    (h : noLiveToken t (sessionsFor cfg db)) :
    exceptIsOk (handleTokenRefresh cfg db now (some t)).result = false ∧
    (t.secret = cfg.refreshSecret → now < t.exp →
      (handleTokenRefresh cfg db now (some t)).result =
        .error (.api (.unauthorized "Invalid refresh token" UNAUTHORIZED))) := by
  have hfind := noLive_findRefreshToken_none h
  constructor
  · cases hv : jwtVerify t cfg.refreshSecret now with
    | error e => simp [handleTokenRefresh, hv, exceptIsOk]
    | ok pid => simp [handleTokenRefresh, hv, hfind, exceptIsOk]
  · intro hsec hexp
    have hv : jwtVerify t cfg.refreshSecret now = .ok t.payloadId := by
      unfold jwtVerify
      rw [if_neg (by rw [hsec]; exact fun hh => hh rfl), if_neg (Nat.not_le_of_lt hexp)]
    simp [handleTokenRefresh, hv, hfind]

lemma noLive_updateRevoke_found {cfg : AuthConfig} {db : Db} {t : Token} {st : StoredTokenView}
    (hfind : findRefreshToken cfg db t = some st)
    (hone : ∀ s1 ∈ sessionsFor cfg db, ∀ s2 ∈ sessionsFor cfg db,
      s1.token = t → s2.token = t → s1.revoked = false → s2.revoked = false → s1.id = s2.id) :
    noLiveToken t (updateRevokeById st.id (sessionsFor cfg db)) := by
  unfold findRefreshToken at hfind
  cases hf : findFirstWhere (fun s => s.token = t && s.revoked = false) (sessionsFor cfg db) with
  | none => rw [hf] at hfind; exact absurd hfind (by simp)
  | some r0 =>
    rw [hf] at hfind
    have hr0mem := findFirstWhere_mem hf
    have hr0p := findFirstWhere_some hf
    simp only [Bool.and_eq_true, decide_eq_true_eq] at hr0p
    have hstid : st.id = r0.id := by cases hfind; rfl
    intro s hs hst
    rcases List.mem_map.mp hs with ⟨s₀, hs₀, heq⟩
    by_cases hid : s₀.id = st.id
    · rw [if_pos hid] at heq
      rw [← heq]
      rfl
    · rw [if_neg hid] at heq
      subst heq
      cases hrev : s₀.revoked with
      | true => rfl
      | false =>
        exfalso
        apply hid
        rw [hstid]
        exact hone s₀ hs₀ r0 hr0mem hst hr0p.1 hrev hr0p.2

lemma refresh_ok_shape {cfg : AuthConfig} {db : Db} {now : Nat} {t : Token}
    (hok : exceptIsOk (handleTokenRefresh cfg db now (some t)).result = true) :
    t.secret = cfg.refreshSecret ∧ now < t.exp ∧
    ∃ st, findRefreshToken cfg db t = some st ∧
      sessionsFor cfg (handleTokenRefresh cfg db now (some t)).db =
        updateRevokeById st.id (sessionsFor cfg db) ++
          [⟨(revokeRefreshToken cfg db st.id).nextRowId,
            jwtSign t.payloadId none none none cfg.refreshSecret (cfg.refreshDuration * 86400) now,
            t.payloadId, (revokeRefreshToken cfg db st.id).nextUuid, now,
            now + cfg.refreshDuration * 86400, false⟩] := by
  cases hv : jwtVerify t cfg.refreshSecret now with
  | error e => simp [handleTokenRefresh, hv, exceptIsOk] at hok
  | ok pid =>
    obtain ⟨hpid, hsec, hexp⟩ := jwtVerify_ok hv
    cases hfind : findRefreshToken cfg db t with
    | none => simp [handleTokenRefresh, hv, hfind, exceptIsOk] at hok
    | some st =>
      by_cases hbad : st.expiresAt < now ∨ st.revoked = true
      · have h1 : st.expiresAt < now ∨ st.revoked = true := hbad
        have hbadB : (decide (st.expiresAt < now) || st.revoked) = true := by
          rcases h1 with h | h <;> simp [h]
        simp [handleTokenRefresh, hv, hfind, hbadB, exceptIsOk] at hok
      · have h1 : ¬ st.expiresAt < now := fun hh => hbad (Or.inl hh)
        have h2 : st.revoked = false := by
          cases hb : st.revoked
          · rfl
          · exact absurd (Or.inr hb) hbad
        have hbadB : (decide (st.expiresAt < now) || st.revoked) = false := by
          simp [h1, h2]
        refine ⟨hsec, hexp, st, rfl, ?_⟩
        subst hpid
        have hshape : sessionsFor cfg (handleTokenRefresh cfg db now (some t)).db =
            sessionsFor cfg (storeRefreshToken cfg (revokeRefreshToken cfg db st.id)
              (jwtSign t.payloadId none none none cfg.refreshSecret (cfg.refreshDuration * 86400) now)
              t.payloadId (revokeRefreshToken cfg db st.id).nextUuid
              (now + cfg.refreshDuration * 86400) now) := by
          simp only [handleTokenRefresh, hv, hfind, hbadB, Bool.false_eq_true, if_false]
          exact sessionsFor_congr rfl rfl
        rw [hshape, storeRefreshToken_sessions, revokeRefreshToken_sessions]

/-- Row id of the stored RefreshSession consumed by a refresh of `t` (the
value `storedToken.id` that `handleTokenRefresh` passes to
`config.revokeRefreshToken` in step 5). -/
def stIdOf (cfg : AuthConfig) (db : Db) (t : Token) : Nat :=
  match findRefreshToken cfg db t with
  | some st => st.id
  | none => 0

/-- C1, counterexample. The claim states that a refresh token string, once
accepted by refresh(), is rejected by every subsequent refresh() call.
`jwt.sign` is deterministic, so two v1 logins of the same user within the
same second (time 0) store two session rows carrying the *identical*
refresh-token string. Refreshing with that string at time 5 succeeds and
revokes the first row — but the second row still holds the same string
un-revoked, so refreshing with the very same, already-consumed string at
time 6 succeeds again: the token is double-spent. -/
theorem refresh_one_time_use_counterexample :
    exceptIsOk (handleTokenRefresh userAuthConfig
      (applyOps
        ⟨[⟨1, "a@b.c", bcryptHash "Password1", "N", "S", true, "STUDENT", none⟩],
          [], [], [], 0, 0⟩
        [.opLoginUserV1 0 "a@b.c" "Password1", .opLoginUserV1 0 "a@b.c" "Password1"])
      5 (some ⟨1, none, none, none, 1, 0, 2592000⟩)).result = true ∧
    exceptIsOk (handleTokenRefresh userAuthConfig
      (handleTokenRefresh userAuthConfig
        (applyOps
          ⟨[⟨1, "a@b.c", bcryptHash "Password1", "N", "S", true, "STUDENT", none⟩],
            [], [], [], 0, 0⟩
          [.opLoginUserV1 0 "a@b.c" "Password1", .opLoginUserV1 0 "a@b.c" "Password1"])
        5 (some ⟨1, none, none, none, 1, 0, 2592000⟩)).db
      6 (some ⟨1, none, none, none, 1, 0, 2592000⟩)).result = true := by
  exact ⟨rfl, rfl⟩

/-- C1, amended. One-time use of refresh tokens holds under two freshness
provisos that the code itself does not enforce: (a) at the moment a
refresh accepts token `t`, all non-revoked stored rows carrying `t`'s
string are the single consumed row (no duplicate mint has stored the same
string twice), and (b) every later token mint — any login or refresh of
either principal class — happens at a signing second different from
`t.iat` (so deterministic `jwt.sign` cannot re-create `t`'s string).
Then: after the accepting call, every subsequent refresh() with `t` —
after arbitrarily many further logins, refreshes and logouts — fails, and
fails with the same Unauthorized "Invalid refresh token" while `t`'s JWT
is unexpired; moreover the consumed row is revoked before the replacement
is persisted, so in the state where step 5 (revocation) has completed but
nothing further was stored, a refresh of `t` already fails the same way —
a failure after the revocation step never resurrects the old token. -/
theorem refresh_one_time_use_amended (cfg : AuthConfig) (db : Db) (now now2 : Nat)
    (t : Token) (ops : List AuthOp)
    (hcfg : cfg = userAuthConfig ∨ cfg = adminAuthConfig)
    (hone : ∀ s1 ∈ sessionsFor cfg db, ∀ s2 ∈ sessionsFor cfg db, s1.token = t → s2.token = t →
      s1.revoked = false → s2.revoked = false → s1.id = s2.id)
    (hiat : t.iat ≠ now)
    (hops : ∀ op ∈ ops, ∀ τ, AuthOp.mintTime op = some τ → τ ≠ t.iat)
    (hok : exceptIsOk (handleTokenRefresh cfg db now (some t)).result = true) :
    (exceptIsOk (handleTokenRefresh cfg
        (applyOps (handleTokenRefresh cfg db now (some t)).db ops) now2 (some t)).result = false ∧
      (now2 < t.exp →
        (handleTokenRefresh cfg (applyOps (handleTokenRefresh cfg db now (some t)).db ops) now2
            (some t)).result =
          .error (.api (.unauthorized "Invalid refresh token" UNAUTHORIZED)))) ∧
    (exceptIsOk (handleTokenRefresh cfg (revokeRefreshToken cfg db (stIdOf cfg db t)) now2
        (some t)).result = false ∧
      (now2 < t.exp →
        (handleTokenRefresh cfg (revokeRefreshToken cfg db (stIdOf cfg db t)) now2
            (some t)).result =
          .error (.api (.unauthorized "Invalid refresh token" UNAUTHORIZED)))) := by
  obtain ⟨hsec, hexp, st, hfind, hshape⟩ := refresh_ok_shape hok
  have hkill : noLiveToken t (updateRevokeById st.id (sessionsFor cfg db)) :=
    noLive_updateRevoke_found hfind hone
  have hlive1 : noLiveToken t (sessionsFor cfg (handleTokenRefresh cfg db now (some t)).db) := by
    rw [hshape]
    intro s hs hst
    rcases List.mem_append.mp hs with h1 | h1
    · exact hkill s h1 hst
    · exfalso
      apply hiat
      rw [← hst, List.mem_singleton.mp h1]
      rfl
  have hliveF : noLiveToken t
      (sessionsFor cfg (applyOps (handleTokenRefresh cfg db now (some t)).db ops)) := by
    rcases hcfg with hc | hc
    · subst hc
      exact noLive_user_applyOps ops _ hlive1 hops
    · subst hc
      exact noLive_admin_applyOps ops _ hlive1 hops
  have hstid : stIdOf cfg db t = st.id := by simp [stIdOf, hfind]
  have hlivec : noLiveToken t
      (sessionsFor cfg (revokeRefreshToken cfg db (stIdOf cfg db t))) := by
    rw [hstid, revokeRefreshToken_sessions]
    exact hkill
  refine ⟨⟨(refresh_fails_noLive hliveF).1, fun h2 => (refresh_fails_noLive hliveF).2 hsec h2⟩,
    ⟨(refresh_fails_noLive hlivec).1, fun h2 => (refresh_fails_noLive hlivec).2 hsec h2⟩⟩

/-- Concrete instantiation of `refresh_one_time_use_amended`: a single
stored row holds the token; after its rotation at time 1 and a further
login at time 2, replaying the consumed token at time 3 is rejected. -/
theorem refresh_one_time_use_amended_witness :
    exceptIsOk (handleTokenRefresh userAuthConfig
      (applyOps (handleTokenRefresh userAuthConfig
          ⟨[⟨1, "a@b.c", bcryptHash "Password1", "N", "S", true, "STUDENT", none⟩],
            [], [⟨0, ⟨1, none, none, none, 1, 0, 2592000⟩, 1, 0, 0, 2592000, false⟩],
            [], 1, 1⟩
          1 (some ⟨1, none, none, none, 1, 0, 2592000⟩)).db
        [.opLoginUserV1 2 "a@b.c" "Password1"])
      3 (some ⟨1, none, none, none, 1, 0, 2592000⟩)).result = false := by
  exact (refresh_one_time_use_amended userAuthConfig
    ⟨[⟨1, "a@b.c", bcryptHash "Password1", "N", "S", true, "STUDENT", none⟩],
      [], [⟨0, ⟨1, none, none, none, 1, 0, 2592000⟩, 1, 0, 0, 2592000, false⟩],
      [], 1, 1⟩
    1 3 ⟨1, none, none, none, 1, 0, 2592000⟩
    [.opLoginUserV1 2 "a@b.c" "Password1"]
    (Or.inl rfl)
    (by
      intro s1 h1 s2 h2 ht1 ht2 hr1 hr2
      have h1' : s1 ∈ [(⟨0, ⟨1, none, none, none, 1, 0, 2592000⟩, 1, 0, 0, 2592000, false⟩ : Session)] := h1
      have h2' : s2 ∈ [(⟨0, ⟨1, none, none, none, 1, 0, 2592000⟩, 1, 0, 0, 2592000, false⟩ : Session)] := h2
      rw [List.mem_singleton] at h1' h2'
      rw [h1', h2'])
    (by decide)
    (by
      intro op hop τ hτ
      rw [List.mem_singleton] at hop
      subst hop
      simp [AuthOp.mintTime] at hτ
      subst hτ
      decide)
    (by rfl)).1.1
